import Mathlib

set_option maxHeartbeats 2000000

/-!
Verification development for the table reconstruction and quality-filtering
pipeline of `src/data/data_processing/extract_tables.py` and the aspect
classifier of `src/data/data_processing/summarize_dataset.py`.

The Python source is shallowly embedded: BeautifulSoup parse trees become
lists of rows of cells, mutable loops become explicit folds or recursions,
regular-expression operations become executable scanners over `List Char`,
exceptions become `Except`, and pandas data frames become ordered lists of
`(column name, values)` pairs.  Definitions follow the source; spec-side
formulations used in refinement statements are clearly named `spec...` or
`claim...`.
-/

/- ---------------------------------------------------------------- -/
/- String and scanner utilities (Python `str` / `re` counterparts)  -/
/- ---------------------------------------------------------------- -/

/-- Does `p` match at the head of `s`?  (The prefix test used by all the
scanners below.) -/
def leadMatch : List Char → List Char → Bool
  | [], _ => true
  | _ :: _, [] => false
  | p :: ps, c :: cs => p == c && leadMatch ps cs

/-- Python `pat in s` (substring occurrence test), on character lists. -/
def occursIn (pat : List Char) : List Char → Bool
  | [] => pat.isEmpty
  | c :: rest => leadMatch pat (c :: rest) || occursIn pat rest

/-- Python `pat in s` on strings. -/
def strHas (s pat : String) : Bool := occursIn pat.toList s.toList

/-- Python `s.count(pat)` for nonempty `pat`: number of non-overlapping
occurrences, scanning left to right.  `fuel` is instantiated with the
string length, which suffices since each step consumes at least one
character. -/
def countOccAux (pat : List Char) : Nat → List Char → Nat
  | 0, _ => 0
  | _ + 1, [] => 0
  | fuel + 1, c :: rest =>
    if leadMatch pat (c :: rest) then
      1 + countOccAux pat fuel ((c :: rest).drop (max pat.length 1))
    else countOccAux pat fuel rest

/-- Python `s.count(pat)` on character lists. -/
def countOcc (pat s : List Char) : Nat := countOccAux pat s.length s

/-- One pass of Python `re.sub(p1|p2|...,(repl), s)` for literal alternatives:
scan left to right, at each position try the patterns in order, replace the
first that matches and continue after it.  `fuel` bounds the recursion and is
instantiated with the string length (each step consumes at least one
character when every pattern is nonempty, so the fuel never runs out). -/
def subManyAux (pats : List (List Char)) (repl : List Char) : Nat → List Char → List Char
  | 0, s => s
  | _ + 1, [] => []
  | fuel + 1, c :: rest =>
    match pats.find? (fun p => leadMatch p (c :: rest)) with
    | some p => repl ++ subManyAux pats repl fuel ((c :: rest).drop (max p.length 1))
    | none => c :: subManyAux pats repl fuel rest

/-- Replace every occurrence of any of the literal patterns, first
alternative wins (Python `re.sub` with an alternation of literals, and
Python `str.replace` when a single pattern is given). -/
def subMany (pats : List String) (repl : String) (s : String) : String :=
  ⟨subManyAux (pats.map String.toList) repl.toList s.toList.length s.toList⟩

/-- Python `str.strip()` on character lists (whitespace trim; the source
only strips ASCII whitespace in the cases exercised here). -/
def trimL (s : List Char) : List Char :=
  ((s.dropWhile Char.isWhitespace).reverse.dropWhile Char.isWhitespace).reverse

/-- Python `str.strip()`. -/
def pyStrip (s : String) : String := ⟨trimL s.toList⟩

/-- Python `str.lower()` (the inputs exercised here are ASCII or
case-less symbols). -/
def strLower (s : String) : String := ⟨s.toList.map Char.toLower⟩

/-- Lowercase hex digit class `[a-f\d]` of the citation-marker regexes. -/
def hexLow (c : Char) : Bool := c.isDigit || ('a' ≤ c && c ≤ 'f')

/-- `re.search("{{cite:([a-f\d]{7})}}", s)`: scan for the first
citation marker and return its captured 7-character short key. -/
def citeSearch : List Char → Option String
  | [] => none
  | c :: rest =>
    match c :: rest with
    | '{' :: '{' :: 'c' :: 'i' :: 't' :: 'e' :: ':' ::
        a :: b :: c2 :: d :: e :: f :: g :: '}' :: '}' :: _ =>
      if (hexLow a && hexLow b && hexLow c2 && hexLow d && hexLow e && hexLow f && hexLow g) then
        some ⟨[a, b, c2, d, e, f, g]⟩
      else citeSearch rest
    | _ => citeSearch rest

/-- The full matched text of a citation marker with short key `id`
(`match[0]` of the marker regex). -/
def citeMarker (id : String) : String := "\x7b\x7bcite:" ++ id ++ "\x7d\x7d"

/- ---------------------------------------------------------------- -/
/- Parsed table trees (output of `soupify`)                         -/
/- ---------------------------------------------------------------- -/

/-- A `td` cell of the soupified tree: its text content, its `cols`
attribute (column span, `attrs.get("cols", "1")`), and the `sha`
attributes of its nested `cit` elements (`none` when the attribute is
absent).  The BeautifulSoup parse itself (the Markup Normalizer) is
modelled by taking the already-parsed tree as input. -/
structure Cell where
  text : String
  cols : Nat := 1
  cites : List (Option String) := []
  deriving Repr, DecidableEq

/-- A `tr` row. -/
abbrev SoupRow := List Cell

/-- A parsed table tree: the ordered `tr` rows of the soup. -/
abbrev SoupTree := List SoupRow

/-- `len(table_soup.find_all("td"))`: the total number of cells. -/
def tdCount (t : SoupTree) : Nat := t.flatten.length

/-- `len(table_soup.find_all("tr"))`: the number of rows. -/
def trCount (t : SoupTree) : Nat := t.length

/-- `has_at_least_2_cols` (extract_tables.py:59-61):
`len(find_all("td")) >= 4 and len(find_all("tr")) >= 2`. -/
def has_at_least_2_cols (t : SoupTree) : Bool :=
  4 ≤ tdCount t && 2 ≤ trCount t

/-- Per-row colspan sum `sum(int(cell.attrs.get("cols", "1")) for cell in row)`. -/
def colspanSum (r : SoupRow) : Nat := (r.map Cell.cols).sum

/-- The column count of `soup_to_json` (extract_tables.py:488-494):
the maximum, over all rows, of the row's cell count and the row's
colspan sum (`max` of the two concatenated lists). -/
def numColsOf (t : SoupTree) : Nat :=
  ((t.map List.length) ++ (t.map colspanSum)).foldl Nat.max 0

/- ---------------------------------------------------------------- -/
/- C8                                                               -/
/- ---------------------------------------------------------------- -/

/-- The property claim C8 asserts of the predicate. -/
def claimC8 : Prop :=
  ∀ t : SoupTree, has_at_least_2_cols t = (2 ≤ numColsOf t && 2 ≤ trCount t)

/-- A tree of four rows of one cell each: 4 cells and 4 rows, but only
one column. -/
def c8Tree : SoupTree :=
  [[⟨"a", 1, []⟩], [⟨"b", 1, []⟩], [⟨"c", 1, []⟩], [⟨"d", 1, []⟩]]

/-- C8 counterexample: `has_at_least_2_cols` counts cells, not columns.
On a tree of four single-cell rows the predicate holds although the
max-based column count is 1, so the claimed equivalence fails. -/
theorem c8_counterexample : ¬ claimC8 := by
  intro h
  have := h c8Tree
  simp [has_at_least_2_cols, numColsOf, tdCount, trCount, c8Tree, colspanSum] at this

/-- C8 (amended): the "at least 2 columns" predicate holds for a parsed
tree exactly when the tree has at least 4 cells in total (a cell-count
proxy for having at least 2 columns) and at least 2 rows. -/
theorem c8_amended (t : SoupTree) :
    has_at_least_2_cols t = ((4 ≤ (t.map List.length).sum) ∧ 2 ≤ t.length : Bool) := by
  have hlen : t.flatten.length = (t.map List.length).sum := by
    induction t with
    | nil => simp
    | cons r rs ih => simp [ih]
  simp [has_at_least_2_cols, tdCount, trCount, hlen]

/-- Witness instantiating `c8_amended` on a concrete 2×2 tree. -/
theorem c8_amended_witness :
    has_at_least_2_cols [[⟨"a", 1, []⟩, ⟨"b", 1, []⟩], [⟨"c", 1, []⟩, ⟨"d", 1, []⟩]] =
      ((4 ≤ ([[⟨"a", 1, []⟩, ⟨"b", 1, []⟩], [⟨"c", 1, []⟩,
        (⟨"d", 1, []⟩ : Cell)]].map List.length).sum) ∧
        2 ≤ ([[⟨"a", 1, []⟩, ⟨"b", 1, []⟩], [⟨"c", 1, []⟩, ⟨"d", 1, []⟩]] : SoupTree).length :
        Bool) :=
  c8_amended [[⟨"a", 1, []⟩, ⟨"b", 1, []⟩], [⟨"c", 1, []⟩, ⟨"d", 1, []⟩]]

/- ---------------------------------------------------------------- -/
/- summarize_dataset.py: aspect classifier                          -/
/- ---------------------------------------------------------------- -/

namespace Summarize

/-- Consume one Python-float "digitpart" continuation after at least one
digit: further digits, with single underscores allowed only between
digits.  Returns the unconsumed remainder. -/
def digitRun : List Char → List Char
  | '_' :: c :: rest => if c.isDigit then digitRun rest else '_' :: c :: rest
  | c :: rest => if c.isDigit then digitRun rest else c :: rest
  | [] => []

/-- Parse a Python-float "digitpart" (at least one digit); returns the
remainder on success. -/
def parseDigitPart : List Char → Option (List Char)
  | c :: rest => if c.isDigit then some (digitRun rest) else none
  | [] => none

/-- Parse the mantissa of a Python float literal:
`digitpart ["." [digitpart]]` or `"." digitpart`. -/
def parseMantissa : List Char → Option (List Char)
  | '.' :: r => parseDigitPart r
  | c :: r =>
    if c.isDigit then
      match digitRun r with
      | '.' :: r2 =>
        some (match parseDigitPart r2 with | some rest => rest | none => r2)
      | r1 => some r1
    else none
  | [] => none

/-- Try to consume an optional exponent `("e"|"E") [sign] digitpart`;
if the exponent does not parse, nothing is consumed. -/
def parseExp (s : List Char) : List Char :=
  match s with
  | e :: r =>
    if e == 'e' || e == 'E' then
      let r2 := match r with | '+' :: r3 => r3 | '-' :: r3 => r3 | _ => r
      match parseDigitPart r2 with
      | some rest => rest
      | none => s
    else s
  | [] => []

/-- Does Python `float(s)` succeed?  (`[sign] (inf|infinity|nan |
floatnumber)`, case-insensitive, whole string consumed; the callers have
already removed whitespace, commas and hyphens.) -/
def pyFloatOk (s : List Char) : Bool :=
  let t := ((s.dropWhile Char.isWhitespace).reverse.dropWhile Char.isWhitespace).reverse
  let s1 := match t with | '+' :: r => r | '-' :: r => r | _ => t
  let low := s1.map Char.toLower
  if low = "inf".toList || low = "infinity".toList || low = "nan".toList then true
  else
    match parseMantissa s1 with
    | none => false
    | some rest => (parseExp rest).isEmpty

/-- Consume `\d+` (greedy); returns the remainder on success. -/
def parseDigits1 (s : List Char) : Option (List Char) :=
  let ds := s.takeWhile Char.isDigit
  if ds.isEmpty then none else some (s.drop ds.length)

/-- `re.match(r"[<-]?\d+[km]", value)` (summarize_dataset.py:71): optional
`<` or `-`, one or more digits, then `k` or `m`. -/
def matchUnits (s : List Char) : Bool :=
  let s1 := match s with | '<' :: r => r | '-' :: r => r | _ => s
  match parseDigits1 s1 with
  | some (c :: _) => c == 'k' || c == 'm'
  | _ => false

/-- Optionally consume a trailing `s?`. -/
def optS : List Char → List Char
  | 's' :: r => r
  | s => s

/-- Group 1 of the time regex: `\d+(?:hrs?|hours?)`. -/
def timeG1 (s : List Char) : Option (List Char) :=
  match parseDigits1 s with
  | some ('h' :: 'r' :: r2) => some (optS r2)
  | some ('h' :: 'o' :: 'u' :: 'r' :: r2) => some (optS r2)
  | _ => none

/-- Group 2 of the time regex: `\d+(?:ms?|mins?|minutes?)`.  The regex
alternation tries `ms?` first, which always succeeds once an `m` is seen,
so the `mins?`/`minutes?` alternatives are unreachable. -/
def timeG2 (s : List Char) : Option (List Char) :=
  match parseDigits1 s with
  | some ('m' :: r2) => some (optS r2)
  | _ => none

/-- Group 3 of the time regex: `\d+(?:s|sec|seconds?)`; the `s`
alternative always wins. -/
def timeG3 (s : List Char) : Option (List Char) :=
  match parseDigits1 s with
  | some ('s' :: r2) => some r2
  | _ => none

/-- `any(re.match(time_regex, value).groups())`: the three optional
groups are attempted in sequence, each from where the previous one
stopped; true iff at least one matched. -/
def timeAny (s : List Char) : Bool :=
  let (g1, s1) := match timeG1 s with | some r => (true, r) | none => (false, s)
  let (g2, s2) := match timeG2 s1 with | some r => (true, r) | none => (false, s1)
  let g3 := (timeG3 s2).isSome
  g1 || g2 || g3

/-- `re.match(r"\d+[gm]hz", value)`. -/
def matchFreq (s : List Char) : Bool :=
  match parseDigits1 s with
  | some (c :: 'h' :: 'z' :: _) => c == 'g' || c == 'm'
  | _ => false

/-- `is_numeric` (summarize_dataset.py:62-86): replace "below" with "<",
lowercase/strip, remove `[<$∼~∼\s]`, then try the units, time and
frequency patterns, falling back to Python `float` after removing commas
and hyphens. -/
def is_numeric (value : String) : Bool :=
  let v1 := subMany ["below"] "<" value
  let l : List Char :=
    (pyStrip (strLower v1)).toList.filter
      (fun c => !(c == '<' || c == '$' || c == '∼' || c == '~' || c.isWhitespace))
  matchUnits l || timeAny l || matchFreq l ||
    pyFloatOk (l.filter (fun c => !(c == ',' || c == '-')))

/-- `is_binary` (summarize_dataset.py:89-91). -/
def is_binary (value : String) : Bool :=
  let v := pyStrip value
  strLower v == "yes" || strLower v == "no" ||
    v == "✘" || v == "✗" || v == "×" || v == "✔" || v == "✓"

/-- `is_na` (summarize_dataset.py:93-95): lowercase, remove `[∼~\s]`,
and compare against the placeholder set {"-", "–", "n/a"}. -/
def is_na (value : String) : Bool :=
  let v : String := ⟨(strLower value).toList.filter
    (fun c => !(c == '∼' || c == '~' || c.isWhitespace))⟩
  v == "-" || v == "–" || v == "n/a"

/-- `len(v.split())`: the number of maximal whitespace-free runs. -/
def wordCountAux : Bool → List Char → Nat
  | _, [] => 0
  | inw, c :: rest =>
    if c.isWhitespace then wordCountAux false rest
    else (if inw then 0 else 1) + wordCountAux true rest

/-- `len(v.split())` on a string. -/
def wordCount (s : String) : Nat := wordCountAux false s.toList

/-- `get_aspect_type` (summarize_dataset.py:98-121).  `none` models the
`IndexError` the source raises on an empty column. -/
def get_aspect_type (column : List String) : Option String :=
  match column with
  | [] => none
  | v0 :: _ =>
    if strHas v0 "\x7b\x7bcite:" then some "cite"
    else if column.all (fun v => is_numeric v || is_na v) then some "num"
    else if column.all (fun v => is_binary v || is_na v) then some "bool"
    else if column.dedup.length == 1 then some "cat-uniq"
    else if column.dedup.length != column.length then some "cat"
    else if ((column.filter (fun v => !is_na v)).map
        (fun v => decide (4 < wordCount v))).countP id * 2 >
        ((column.filter (fun v => !is_na v)).map
          (fun v => decide (4 < wordCount v))).length then some "gen"
    else some "ent"

/-- Spec-side formulation of the ordered aspect classifier (§4.7 of the
spec): citation, numeric, boolean, constant-category, repeated-category,
generative-text, entity-text, first match wins, with the conditions
phrased as in the spec. -/
def specAspect (v0 : String) (column : List String) : String :=
  if strHas v0 "\x7b\x7bcite:" then "cite"
  else if column.all (fun v => is_na v || is_numeric v) then "num"
  else if column.all (fun v => is_na v || is_binary v) then "bool"
  else if column.all (fun v => v == v0) then "cat-uniq"
  else if decide (¬ column.Nodup) then "cat"
  else if 2 * column.countP (fun v => !is_na v && decide (4 < wordCount v)) >
      column.countP (fun v => !is_na v) then "gen"
  else "ent"

end Summarize

/- ---------------------------------------------------------------- -/
/- C9                                                               -/
/- ---------------------------------------------------------------- -/

/-- A `Nodup` list whose elements all equal `v0`, containing `v0`, is
exactly `[v0]`. -/
theorem nodup_all_eq_singleton (l : List String) (v0 : String) (hnd : l.Nodup)
    (hall : ∀ x ∈ l, x = v0) (hv : v0 ∈ l) : l = [v0] := by
  cases l with
  | nil => cases hv
  | cons a l' =>
    have ha : a = v0 := hall a (by simp)
    have hl' : l' = [] := by
      apply List.eq_nil_iff_forall_not_mem.mpr
      intro b hb
      have hb' : b = v0 := hall b (by simp [hb])
      have : a ∉ l' := (List.nodup_cons.mp hnd).1
      exact this (by rw [ha, ← hb']; exact hb)
    rw [ha, hl']

/-- `len(set(l)) == 1` says every element equals the head. -/
theorem dedup_length_eq_one_iff (v0 : String) (rest : List String) :
    (v0 :: rest).dedup.length = 1 ↔ ∀ x ∈ v0 :: rest, x = v0 := by
  constructor
  · intro h x hx
    obtain ⟨a, ha⟩ := List.length_eq_one.mp h
    have hx' : x ∈ (v0 :: rest).dedup := List.mem_dedup.mpr hx
    have hv : v0 ∈ (v0 :: rest).dedup := List.mem_dedup.mpr (by simp)
    rw [ha] at hx' hv
    simp at hx' hv
    rw [hx', hv]
  · intro h
    have : (v0 :: rest).dedup = [v0] := by
      apply nodup_all_eq_singleton _ _ (List.nodup_dedup _)
      · intro x hx; exact h x (List.mem_dedup.mp hx)
      · exact List.mem_dedup.mpr (by simp)
    rw [this]; rfl

/-- `len(set(l)) == len(l)` says the list has no duplicates. -/
theorem dedup_length_eq_iff (l : List String) : l.dedup.length = l.length ↔ l.Nodup := by
  constructor
  · intro h
    have hs : l.dedup.Sublist l := List.dedup_sublist l
    have := hs.eq_of_length h
    rw [← this]
    exact List.nodup_dedup l
  · intro h
    rw [h.dedup]

/-- Pointwise-equal predicates give equal `all`. -/
theorem all_congr_fun {α : Type} (l : List α) (f g : α → Bool) (h : ∀ x, f x = g x) :
    l.all f = l.all g := by
  induction l with
  | nil => rfl
  | cons a l ih => simp [List.all_cons, h a, ih]

/-- The claim's fourth example: formalization of "maps
`["this is a long descriptive sentence about something", "x"]` to
generative-text". -/
def claimC9Example4 : Prop :=
  Summarize.get_aspect_type ["this is a long descriptive sentence about something", "x"] =
    some "gen"

/-- C9 counterexample: in the two-element example exactly half — not
more than half — of the non-placeholder values exceed 4 whitespace
tokens (`sum(val_lens) > len(val_lens)/2` is `1 > 1.0`, false), so the
classifier returns entity-text, not generative-text. -/
theorem c9_counterexample :
    ¬ claimC9Example4 ∧
      Summarize.get_aspect_type
        ["this is a long descriptive sentence about something", "x"] = some "ent" := by
  constructor
  · intro h
    exact absurd h (by unfold claimC9Example4; decide)
  · decide

/-- C9 (amended): `get_aspect_type` applies its checks in the fixed
order citation → numeric → boolean → constant-category →
repeated-category → generative-text → entity-text with the first match
winning (refinement against the spec-side `specAspect`), and maps
`["3","5","-"]` to numeric, `["yes","no"]` to boolean, `["a","a","a"]`
to constant-category, and the spec's two-element text example to
entity-text, because exactly half (not more than half) of its
non-placeholder values have more than 4 whitespace tokens. -/
theorem c9_amended :
    (∀ (v0 : String) (rest : List String),
        Summarize.get_aspect_type (v0 :: rest) = some (Summarize.specAspect v0 (v0 :: rest))) ∧
      Summarize.get_aspect_type ["3", "5", "-"] = some "num" ∧
      Summarize.get_aspect_type ["yes", "no"] = some "bool" ∧
      Summarize.get_aspect_type ["a", "a", "a"] = some "cat-uniq" ∧
      Summarize.get_aspect_type
        ["this is a long descriptive sentence about something", "x"] = some "ent" := by
  refine ⟨?_, by decide, by decide, by decide, by decide⟩
  intro v0 rest
  have hnum : (v0 :: rest).all (fun v => Summarize.is_numeric v || Summarize.is_na v) =
      (v0 :: rest).all (fun v => Summarize.is_na v || Summarize.is_numeric v) :=
    all_congr_fun _ _ _ (fun x => Bool.or_comm _ _)
  have hbool : (v0 :: rest).all (fun v => Summarize.is_binary v || Summarize.is_na v) =
      (v0 :: rest).all (fun v => Summarize.is_na v || Summarize.is_binary v) :=
    all_congr_fun _ _ _ (fun x => Bool.or_comm _ _)
  have hcat1 : ((v0 :: rest).dedup.length == 1) = (v0 :: rest).all (fun v => v == v0) := by
    rw [Bool.eq_iff_iff]
    simp only [beq_iff_eq, List.all_eq_true]
    exact (dedup_length_eq_one_iff v0 rest).trans (by simp)
  have hcat2 : ((v0 :: rest).dedup.length != (v0 :: rest).length) =
      decide (¬ (v0 :: rest).Nodup) := by
    rw [Bool.eq_iff_iff]
    simp only [bne_iff_ne, Ne, decide_eq_true_eq]
    exact not_congr (dedup_length_eq_iff (v0 :: rest))
  have hgen : (((v0 :: rest).filter (fun v => !Summarize.is_na v)).map
        (fun v => decide (4 < Summarize.wordCount v))).countP id * 2 >
        (((v0 :: rest).filter (fun v => !Summarize.is_na v)).map
          (fun v => decide (4 < Summarize.wordCount v))).length ↔
      2 * (v0 :: rest).countP (fun v => !Summarize.is_na v && decide (4 < Summarize.wordCount v)) >
        (v0 :: rest).countP (fun v => !Summarize.is_na v) := by
    rw [List.countP_map, List.length_map, List.countP_filter,
      ← List.countP_eq_length_filter]
    have : ((v0 :: rest).countP fun a => (id ∘ fun v => decide (4 < Summarize.wordCount v)) a &&
        (!Summarize.is_na a)) = (v0 :: rest).countP
        (fun v => !Summarize.is_na v && decide (4 < Summarize.wordCount v)) := by
      apply List.countP_congr
      intro x _
      simp [Function.comp, Bool.and_comm]
    rw [this, Nat.mul_comm]
  have hunfold : Summarize.get_aspect_type (v0 :: rest) =
      (if strHas v0 "\x7b\x7bcite:" then some "cite"
       else if (v0 :: rest).all (fun v => Summarize.is_numeric v || Summarize.is_na v) then
         some "num"
       else if (v0 :: rest).all (fun v => Summarize.is_binary v || Summarize.is_na v) then
         some "bool"
       else if (v0 :: rest).dedup.length == 1 then some "cat-uniq"
       else if (v0 :: rest).dedup.length != (v0 :: rest).length then some "cat"
       else if (((v0 :: rest).filter (fun v => !Summarize.is_na v)).map
           (fun v => decide (4 < Summarize.wordCount v))).countP id * 2 >
           (((v0 :: rest).filter (fun v => !Summarize.is_na v)).map
             (fun v => decide (4 < Summarize.wordCount v))).length then some "gen"
       else some "ent") := rfl
  rw [hunfold]
  unfold Summarize.specAspect
  rw [hnum, hbool, hcat1, hcat2]
  simp only [apply_ite some]
  exact if_congr Iff.rfl rfl (if_congr Iff.rfl rfl (if_congr Iff.rfl rfl
    (if_congr Iff.rfl rfl (if_congr Iff.rfl rfl (if_congr hgen rfl rfl)))))

/- ---------------------------------------------------------------- -/
/- extract_tables.py: the Table Reconstructor grid-filling loop     -/
/- ---------------------------------------------------------------- -/

/-- `is_na` (extract_tables.py:235-236): an "empty/NA" cell token. -/
def is_na (text : String) : Bool :=
  strLower text == "n/a" || pyStrip text == "" || text == "∖"

/-- `re.search(r"(\d)\*(.+)", cell_text)` (extract_tables.py:550): scan
for the first single digit followed by `*` followed by at least one
non-newline character; return the digit's value and the `(.+)` capture
(the run of non-newline characters after the `*`). -/
def multirowSearch : List Char → Option (Nat × List Char)
  | [] => none
  | c :: rest =>
    if c.isDigit then
      match rest with
      | '*' :: r2 =>
        let seg := r2.takeWhile (fun ch => ch ≠ '\n')
        if seg.isEmpty then multirowSearch rest else some (c.toNat - 48, seg)
      | _ => multirowSearch rest
    else multirowSearch rest

/-- `re.sub("\(r\)\d-\d", "", s)` (extract_tables.py:574): remove every
horizontal-rule marker `(r)<d>-<d>`.  (The source guards the sub with an
identical `re.search`, which is equivalent to applying the sub
unconditionally.) -/
def hruleSub : Nat → List Char → List Char
  | 0, s => s
  | _ + 1, [] => []
  | fuel + 1, c :: rest =>
    match c :: rest with
    | '(' :: 'r' :: ')' :: a :: '-' :: b :: r2 =>
      if a.isDigit && b.isDigit then hruleSub fuel r2
      else c :: hruleSub fuel rest
    | _ => c :: hruleSub fuel rest

/-- `re.sub("\(r\)\d-\d", "", s)` on strings. -/
def hruleStrip (s : String) : String := ⟨hruleSub s.toList.length s.toList⟩

/-- Read grid position `[r][c]` (always in range at use sites). -/
def get2d (g : List (List String)) (r c : Nat) : String := (g.getD r []).getD c ""

/-- Write grid position `[r][c]` (out-of-range writes cannot occur at
use sites; `List.set` is the identity there). -/
def set2d (g : List (List String)) (r c : Nat) (v : String) : List (List String) :=
  g.set r ((g.getD r []).set c v)

/-- Mutable state of the `soup_to_json` filling loop
(extract_tables.py:504-514): the preallocated grid, the accumulated
`header_rows`, `incomplete_rows` and the `seen_cites` flag, as the
explicit fold state. -/
structure FillState where
  grid : List (List String)
  headerRows : List Nat
  incompleteRows : List (Nat × List String)
  seenCites : Bool
  deriving Repr, DecidableEq

/-- Number of cells of the row that contain a `cit` element
(`len([cell for cell in cells if cell.find("cit") is not None])`). -/
def rowNumCites (row : SoupRow) : Nat := (row.filter (fun c => !c.cites.isEmpty)).length

/-- `any(["{{figure:" in cell.text for cell in cells])`. -/
def rowHasFigureCell (row : SoupRow) : Bool := row.any (fun c => strHas c.text "\x7b\x7bfigure:")

/-- The multi-row propagation (extract_tables.py:556-568): append the
stripped remainder text into the same column of the next `count-1`
rows; a target row index past the grid raises `IndexError`, modelled as
the `error` carrying the grid at failure time. -/
def propagate (ri col : Nat) (txt : String) :
    List Nat → List (List String) → Except (List (List String)) (List (List String))
  | [], g => .ok g
  | ro :: ros, g =>
    if ri + ro < g.length then
      propagate ri col txt ros (set2d g (ri + ro) col (get2d g (ri + ro) col ++ txt))
    else .error g

/-- Processing one spanned position of a cell
(extract_tables.py:547-585): multi-row expansion, horizontal-rule
stripping, NA-placeholder substitution, and the first-writer-wins grid
write. -/
def fillOneOffset (hdrs : List Nat) (ri col : Nat) (cellText : String)
    (g : List (List String)) : Except (List (List String)) (List (List String)) :=
  let step1 : Except (List (List String)) (List (List String)) × String :=
    match multirowSearch cellText.toList with
    | some (cnt, seg) =>
      (propagate ri col (pyStrip ⟨seg⟩) (List.range' 1 (cnt - 1)) g, (⟨seg⟩ : String))
    | none => (.ok g, cellText)
  match step1 with
  | (.error g2, _) => .error g2
  | (.ok g1, ct1) =>
    let ct2 := hruleStrip ct1
    let ct3 :=
      if is_na (pyStrip ct2) && get2d g1 ri col == "" && !hdrs.contains ri then "-" else ct2
    .ok (if get2d g1 ri col == "" then set2d g1 ri col (get2d g1 ri col ++ pyStrip ct3) else g1)

/-- The `for col_offset in range(num_spanning_cols)` loop of one cell. -/
def fillCellOffsets (hdrs : List Nat) (ri colI : Nat) (cell : Cell) :
    List Nat → List (List String) → Except (List (List String)) (List (List String))
  | [], g => .ok g
  | off :: offs, g =>
    match fillOneOffset hdrs ri (colI + off) cell.text g with
    | .error g2 => .error g2
    | .ok g2 => fillCellOffsets hdrs ri colI cell offs g2

/-- The `for cell in cells` loop, threading `col_i`. -/
def fillCells (hdrs : List Nat) (ri : Nat) :
    Nat → List Cell → List (List String) → Except (List (List String)) (List (List String))
  | _, [], g => .ok g
  | colI, cell :: cs, g =>
    match fillCellOffsets hdrs ri colI cell (List.range cell.cols) g with
    | .error g2 => .error g2
    | .ok g2 => fillCells hdrs ri (colI + cell.cols) cs g2

/-- The local `header_rows` value after the first header rule of a row
(`hdrs1` in the loop); the source's mutable locals `seen`/`hdrs1` are
inlined at their use sites. -/
def fillRowHdrs1 (ri : Nat) (row : SoupRow) (st : FillState) : List Nat :=
  if rowNumCites row == 0 && decide (ri ≤ 1) &&
      !(st.seenCites || decide (0 < rowNumCites row)) then st.headerRows ++ [ri]
  else st.headerRows

/-- One iteration of the row loop (extract_tables.py:515-586): update
`seen_cites`, classify the row (header / incomplete / data), and fill
the grid for header and data rows. -/
def fillRow (C ri : Nat) (row : SoupRow) (st : FillState) : Except FillState FillState :=
  if decide (row.length < C) && !(st.seenCites || decide (0 < rowNumCites row)) then
    match fillCells (fillRowHdrs1 ri row st ++ [ri]) ri 0 row st.grid with
    | .error g =>
      .error ⟨g, fillRowHdrs1 ri row st ++ [ri], st.incompleteRows,
        st.seenCites || decide (0 < rowNumCites row)⟩
    | .ok g =>
      .ok ⟨g, fillRowHdrs1 ri row st ++ [ri], st.incompleteRows,
        st.seenCites || decide (0 < rowNumCites row)⟩
  else if decide (row.length < C) || rowHasFigureCell row then
    .ok ⟨st.grid, fillRowHdrs1 ri row st, st.incompleteRows ++ [(ri, row.map Cell.text)],
      st.seenCites || decide (0 < rowNumCites row)⟩
  else
    match fillCells (fillRowHdrs1 ri row st) ri 0 row st.grid with
    | .error g =>
      .error ⟨g, fillRowHdrs1 ri row st, st.incompleteRows,
        st.seenCites || decide (0 < rowNumCites row)⟩
    | .ok g =>
      .ok ⟨g, fillRowHdrs1 ri row st, st.incompleteRows,
        st.seenCites || decide (0 < rowNumCites row)⟩

/-- The full `for row_i, row in enumerate(...)` loop. -/
def fillRows (C : Nat) : Nat → List SoupRow → FillState → Except FillState FillState
  | _, [], st => .ok st
  | ri, row :: rows, st =>
    match fillRow C ri row st with
    | .error st2 => .error st2
    | .ok st2 => fillRows C (ri + 1) rows st2

/-- The initial state: an all-empty `num_rows × num_cols` grid. -/
def initFillState (R C : Nat) : FillState :=
  ⟨List.replicate R (List.replicate C ""), [], [], false⟩

/-- The grid-filling stage of `soup_to_json` on a parsed tree; `error`
is the `IndexError` path of out-of-range multi-row propagation. -/
def soupFill (t : SoupTree) : Except FillState FillState :=
  fillRows (numColsOf t) 0 t (initFillState (trCount t) (numColsOf t))

/- ---------------------------------------------------------------- -/
/- C2                                                               -/
/- ---------------------------------------------------------------- -/

/-- Does a row contain any citation cell? -/
def rowHasCite (r : SoupRow) : Bool := decide (0 < rowNumCites r)

/-- "a citation appeared in some row before row `i`". -/
def citesBefore (t : SoupTree) (i : Nat) : Bool := (t.take i).any rowHasCite

/-- "a citation appeared in some row up to and including row `i`"
(the value of `seen_cites` when row `i` is classified). -/
def citesThrough (t : SoupTree) (i : Nat) : Bool := (t.take (i + 1)).any rowHasCite

/-- The claim's header condition for row `i`: zero citation cells AND
`i ≤ 1` AND no citation in any earlier row, OR cell count below the
column count with no citation seen yet (including row `i` itself). -/
def claimHeaderCond (t : SoupTree) (i : Nat) : Bool :=
  (rowNumCites (t.getD i []) == 0 && decide (i ≤ 1) && !citesBefore t i) ||
    (decide ((t.getD i []).length < numColsOf t) && !citesThrough t i)

/-- The claim's incomplete condition for row `i`: not classified header
but fewer cells than the column count, or any figure-placeholder cell. -/
def claimIncompleteCond (t : SoupTree) (i : Nat) : Bool :=
  (!claimHeaderCond t i && decide ((t.getD i []).length < numColsOf t)) ||
    rowHasFigureCell (t.getD i [])

/-- The source's incomplete condition for row `i`: the `elif` fires only
when the second header rule did not (extract_tables.py:530-542). -/
def codeIncompleteCond (t : SoupTree) (i : Nat) : Bool :=
  !(decide ((t.getD i []).length < numColsOf t) && !citesThrough t i) &&
    (decide ((t.getD i []).length < numColsOf t) || rowHasFigureCell (t.getD i []))

/-- Claim C2 as stated: header classification and incomplete-row
recording match the two claimed formulas on every successfully filled
tree. -/
def claimC2 : Prop :=
  ∀ (t : SoupTree) (st : FillState), soupFill t = .ok st → ∀ i, i < t.length →
    ((i ∈ st.headerRows ↔ claimHeaderCond t i = true) ∧
      ((i, (t.getD i []).map Cell.text) ∈ st.incompleteRows ↔ claimIncompleteCond t i = true))

/-- Row 0 has a figure-placeholder cell and fewer cells than the column
count, but no citation has been seen, so the source classifies it as a
header row and never records it as incomplete. -/
def c2Tree : SoupTree :=
  [[⟨"{{figure:1}}", 1, []⟩, ⟨"a", 1, []⟩],
    [⟨"x", 1, []⟩, ⟨"y", 1, []⟩, ⟨"z", 1, []⟩]]

/-- C2 counterexample: on `c2Tree`, the claim says row 0 (which carries
a figure-placeholder token) is appended to `incomplete_rows`, but the
code classifies it as a header row (the `elif` is skipped) and
`incomplete_rows` stays empty. -/
theorem c2_counterexample : ¬ claimC2 := by
  intro h
  have hrun : soupFill c2Tree =
      .ok ⟨[["{{figure:1}}", "a", ""], ["x", "y", "z"]], [0, 0, 1], [], false⟩ := by rfl
  have h0 := (h c2Tree _ hrun 0 (by decide)).2
  have hcl : claimIncompleteCond c2Tree 0 = true := by decide
  exact absurd (h0.mpr hcl) (by decide)

/-- The indices appended to `header_rows` while classifying one row
(possibly twice, once per header rule), given the citation flag before
the row. -/
def hdrEmit (C i : Nat) (seen0 : Bool) (row : SoupRow) : List Nat :=
  (if rowNumCites row == 0 && decide (i ≤ 1) && !(seen0 || decide (0 < rowNumCites row)) then
    [i] else []) ++
    (if decide (row.length < C) && !(seen0 || decide (0 < rowNumCites row)) then [i] else [])

/-- The entries appended to `incomplete_rows` while classifying one row. -/
def incEmit (C i : Nat) (seen0 : Bool) (row : SoupRow) : List (Nat × List String) :=
  if !(decide (row.length < C) && !(seen0 || decide (0 < rowNumCites row))) &&
      (decide (row.length < C) || rowHasFigureCell row) then
    [(i, row.map Cell.text)]
  else []

/-- Spec-side fold: all header indices emitted from row `i0` onward. -/
def hdrListFrom (C : Nat) : Nat → Bool → List SoupRow → List Nat
  | _, _, [] => []
  | i, seen0, row :: rows =>
    hdrEmit C i seen0 row ++ hdrListFrom C (i + 1) (seen0 || decide (0 < rowNumCites row)) rows

/-- Spec-side fold: all incomplete-row entries emitted from `i0` onward. -/
def incListFrom (C : Nat) : Nat → Bool → List SoupRow → List (Nat × List String)
  | _, _, [] => []
  | i, seen0, row :: rows =>
    incEmit C i seen0 row ++ incListFrom C (i + 1) (seen0 || decide (0 < rowNumCites row)) rows

/-- A Boolean that is not true is false. -/
theorem bool_ne_true (b : Bool) (h : ¬ b = true) : b = false := by cases b <;> simp_all

/-- A successful `fillRow` updates the citation flag and appends exactly
the emitted header indices and incomplete entries. -/
theorem fillRow_ok (C ri : Nat) (row : SoupRow) (st st2 : FillState)
    (h : fillRow C ri row st = .ok st2) :
    st2.seenCites = (st.seenCites || decide (0 < rowNumCites row)) ∧
      st2.headerRows = st.headerRows ++ hdrEmit C ri st.seenCites row ∧
      st2.incompleteRows = st.incompleteRows ++ incEmit C ri st.seenCites row := by
  unfold fillRow at h
  split at h
  next h2 =>
    split at h
    next g hfill => exact absurd h (by simp)
    next g hfill =>
      cases h
      refine ⟨rfl, ?_, ?_⟩
      · simp only [hdrEmit, fillRowHdrs1]
        rw [if_pos h2]
        by_cases h1 : (rowNumCites row == 0 && decide (ri ≤ 1) &&
            !(st.seenCites || decide (0 < rowNumCites row))) = true
        · rw [if_pos h1, if_pos h1]
          simp
        · rw [if_neg h1, if_neg h1]
          simp
      · simp only [incEmit]
        have hcond : ¬ ((!(decide (row.length < C) &&
            !(st.seenCites || decide (0 < rowNumCites row))) &&
            (decide (row.length < C) || rowHasFigureCell row)) = true) := by
          rw [h2]
          simp
        rw [if_neg hcond]
        simp
  next h2 =>
    split at h
    next h3 =>
      cases h
      refine ⟨rfl, ?_, ?_⟩
      · simp only [hdrEmit, fillRowHdrs1]
        rw [if_neg h2]
        by_cases h1 : (rowNumCites row == 0 && decide (ri ≤ 1) &&
            !(st.seenCites || decide (0 < rowNumCites row))) = true
        · rw [if_pos h1, if_pos h1]
          simp
        · rw [if_neg h1, if_neg h1]
          simp
      · simp only [incEmit]
        have hcond : (!(decide (row.length < C) &&
            !(st.seenCites || decide (0 < rowNumCites row))) &&
            (decide (row.length < C) || rowHasFigureCell row)) = true := by
          rw [bool_ne_true _ h2, h3]
          rfl
        rw [if_pos hcond]
    next h3 =>
      split at h
      next g hfill => exact absurd h (by simp)
      next g hfill =>
        cases h
        refine ⟨rfl, ?_, ?_⟩
        · simp only [hdrEmit, fillRowHdrs1]
          rw [if_neg h2]
          by_cases h1 : (rowNumCites row == 0 && decide (ri ≤ 1) &&
              !(st.seenCites || decide (0 < rowNumCites row))) = true
          · rw [if_pos h1, if_pos h1]
            simp
          · rw [if_neg h1, if_neg h1]
            simp
        · simp only [incEmit]
          have hcond : ¬ ((!(decide (row.length < C) &&
              !(st.seenCites || decide (0 < rowNumCites row))) &&
              (decide (row.length < C) || rowHasFigureCell row)) = true) := by
            rw [bool_ne_true _ h3]
            simp
          rw [if_neg hcond]
          simp

/-- A successful run of the row loop appends exactly the spec-side
emission lists and accumulates the citation flag. -/
theorem fillRows_spec (C : Nat) (rows : List SoupRow) :
    ∀ (i0 : Nat) (st st2 : FillState), fillRows C i0 rows st = .ok st2 →
      st2.seenCites = (st.seenCites || rows.any rowHasCite) ∧
        st2.headerRows = st.headerRows ++ hdrListFrom C i0 st.seenCites rows ∧
        st2.incompleteRows = st.incompleteRows ++ incListFrom C i0 st.seenCites rows := by
  induction rows with
  | nil =>
    intro i0 st st2 h
    cases h
    simp [hdrListFrom, incListFrom]
  | cons row rows ih =>
    intro i0 st st2 h
    unfold fillRows at h
    cases hrow : fillRow C i0 row st with
    | error st3 => rw [hrow] at h; cases h
    | ok st3 =>
      rw [hrow] at h
      obtain ⟨hseen, hhdr, hinc⟩ := fillRow_ok C i0 row st st3 hrow
      obtain ⟨hseen2, hhdr2, hinc2⟩ := ih (i0 + 1) st3 st2 h
      refine ⟨?_, ?_, ?_⟩
      · rw [hseen2, hseen]
        simp [List.any_cons, Bool.or_assoc, rowHasCite]
      · rw [hhdr2, hhdr, hseen]
        simp [hdrListFrom, List.append_assoc]
      · rw [hinc2, hinc, hseen]
        simp [incListFrom, List.append_assoc]

/-- Membership in a row's emitted header indices. -/
theorem hdrEmit_mem (C i : Nat) (s : Bool) (row : SoupRow) (n : Nat) :
    n ∈ hdrEmit C i s row ↔ n = i ∧
      ((rowNumCites row == 0 && decide (i ≤ 1) && !(s || decide (0 < rowNumCites row))) = true ∨
        (decide (row.length < C) && !(s || decide (0 < rowNumCites row))) = true) := by
  unfold hdrEmit
  by_cases h1 : (rowNumCites row == 0 && decide (i ≤ 1) &&
      !(s || decide (0 < rowNumCites row))) = true <;>
    by_cases h2 : (decide (row.length < C) && !(s || decide (0 < rowNumCites row))) = true <;>
      simp [h1, h2] <;> tauto

/-- Membership in a row's emitted incomplete entries. -/
theorem incEmit_mem (C i : Nat) (s : Bool) (row : SoupRow) (p : Nat × List String) :
    p ∈ incEmit C i s row ↔ p = (i, row.map Cell.text) ∧
      (!(decide (row.length < C) && !(s || decide (0 < rowNumCites row))) &&
        (decide (row.length < C) || rowHasFigureCell row)) = true := by
  unfold incEmit
  by_cases hc : (!(decide (row.length < C) && !(s || decide (0 < rowNumCites row))) &&
      (decide (row.length < C) || rowHasFigureCell row)) = true <;>
    simp [hc] <;> tauto

/-- Membership in the emitted header indices, in closed form: index `n`
appears iff it is `i0 + k` for some row `k` and the corresponding
header condition holds, with the citation flag accumulated over the
earlier rows. -/
theorem hdrListFrom_mem (C : Nat) (rows : List SoupRow) :
    ∀ (i0 : Nat) (seen0 : Bool) (n : Nat),
      n ∈ hdrListFrom C i0 seen0 rows ↔
        ∃ k, k < rows.length ∧ n = i0 + k ∧
          ((rowNumCites (rows.getD k []) == 0 && decide (i0 + k ≤ 1) &&
              !((seen0 || (rows.take k).any rowHasCite) ||
                decide (0 < rowNumCites (rows.getD k [])))) = true ∨
            (decide ((rows.getD k []).length < C) &&
              !((seen0 || (rows.take k).any rowHasCite) ||
                decide (0 < rowNumCites (rows.getD k [])))) = true) := by
  induction rows with
  | nil => intro i0 seen0 n; simp [hdrListFrom]
  | cons row rows ih =>
    intro i0 seen0 n
    unfold hdrListFrom
    rw [List.mem_append, hdrEmit_mem, ih]
    constructor
    · rintro (⟨rfl, hc⟩ | ⟨k, hk, rfl, hc⟩)
      · exact ⟨0, by simp, by simp, by simpa using hc⟩
      · refine ⟨k + 1, by simpa using hk, by omega, ?_⟩
        simpa [List.take_succ_cons, List.any_cons, Bool.or_assoc, rowHasCite,
          Nat.add_assoc, Nat.add_comm 1 k] using hc
    · rintro ⟨k, hk, rfl, hc⟩
      cases k with
      | zero =>
        left
        exact ⟨by simp, by simpa using hc⟩
      | succ k =>
        right
        refine ⟨k, by simpa using hk, by omega, ?_⟩
        simpa [List.take_succ_cons, List.any_cons, Bool.or_assoc, rowHasCite,
          Nat.add_assoc, Nat.add_comm 1 k] using hc

/-- Membership in the emitted incomplete entries, in closed form. -/
theorem incListFrom_mem (C : Nat) (rows : List SoupRow) :
    ∀ (i0 : Nat) (seen0 : Bool) (p : Nat × List String),
      p ∈ incListFrom C i0 seen0 rows ↔
        ∃ k, k < rows.length ∧ p = (i0 + k, (rows.getD k []).map Cell.text) ∧
          (!(decide ((rows.getD k []).length < C) &&
              !((seen0 || (rows.take k).any rowHasCite) ||
                decide (0 < rowNumCites (rows.getD k [])))) &&
            (decide ((rows.getD k []).length < C) ||
              rowHasFigureCell (rows.getD k []))) = true := by
  induction rows with
  | nil => intro i0 seen0 p; simp [incListFrom]
  | cons row rows ih =>
    intro i0 seen0 p
    unfold incListFrom
    rw [List.mem_append, incEmit_mem, ih]
    constructor
    · rintro (⟨rfl, hc⟩ | ⟨k, hk, rfl, hc⟩)
      · exact ⟨0, by simp, by simp, by simpa using hc⟩
      · refine ⟨k + 1, by simpa using hk, by simp [Nat.add_assoc, Nat.add_comm 1 k], ?_⟩
        simpa [List.take_succ_cons, List.any_cons, Bool.or_assoc, rowHasCite] using hc
    · rintro ⟨k, hk, hp, hc⟩
      cases k with
      | zero =>
        left
        exact ⟨by simpa using hp, by simpa using hc⟩
      | succ k =>
        right
        refine ⟨k, by simpa using hk, by simpa [Nat.add_assoc, Nat.add_comm 1 k] using hp, ?_⟩
        simpa [List.take_succ_cons, List.any_cons, Bool.or_assoc, rowHasCite] using hc

/-- `any` over `take (i+1)` splits off the `i`-th row. -/
theorem take_succ_any (t : SoupTree) (i : Nat) (h : i < t.length) :
    (t.take (i + 1)).any rowHasCite =
      ((t.take i).any rowHasCite || rowHasCite (t.getD i [])) := by
  induction t generalizing i with
  | nil => simp at h
  | cons row rows ih =>
    cases i with
    | zero => simp
    | succ i =>
      have h' : i < rows.length := by simpa using h
      simp only [List.take_succ_cons, List.any_cons, List.getD_cons_succ]
      rw [ih i h']
      simp [Bool.or_assoc]

/-- With zero citation cells in the row, "no citation seen including
this row" and "no citation seen before this row" coincide, so the two
header-condition forms agree. -/
theorem hdr_cond_eq (z r b d A : Bool) (hzd : z = true → d = false) :
    ((z && r && !(b || d)) || (A && !(b || d))) = ((z && r && !b) || (A && !(b || d))) := by
  cases z <;> cases r <;> cases b <;> cases d <;> cases A <;> simp_all

/-- C2 (amended): header classification matches the claimed two-rule
formula exactly, but a row is recorded as incomplete iff the source's
`elif` fires: NOT (fewer cells AND no citation seen) AND (fewer cells
OR figure token).  In particular a figure-bearing row that the second
header rule captures is never recorded as incomplete. -/
theorem c2_amended (t : SoupTree) (st : FillState) (h : soupFill t = .ok st)
    (i : Nat) (hi : i < t.length) :
    (i ∈ st.headerRows ↔ claimHeaderCond t i = true) ∧
      ((i, (t.getD i []).map Cell.text) ∈ st.incompleteRows ↔ codeIncompleteCond t i = true) := by
  obtain ⟨hseen, hhdr, hinc⟩ :=
    fillRows_spec (numColsOf t) t 0 (initFillState (trCount t) (numColsOf t)) st h
  have hzd : (rowNumCites (t.getD i []) == 0) = true →
      decide (0 < rowNumCites (t.getD i [])) = false := by
    intro hz
    rw [beq_iff_eq] at hz
    rw [hz]
    rfl
  have heq : ((rowNumCites (t.getD i []) == 0 && decide (i ≤ 1) &&
      !((false || (t.take i).any rowHasCite) || decide (0 < rowNumCites (t.getD i [])))) ||
      (decide ((t.getD i []).length < numColsOf t) &&
      !((false || (t.take i).any rowHasCite) || decide (0 < rowNumCites (t.getD i []))))) =
      claimHeaderCond t i := by
    unfold claimHeaderCond citesBefore citesThrough
    rw [take_succ_any t i hi]
    simp only [Bool.false_or]
    exact hdr_cond_eq _ _ _ _ _ hzd
  have heq2 : (!(decide ((t.getD i []).length < numColsOf t) &&
      !((false || (t.take i).any rowHasCite) || decide (0 < rowNumCites (t.getD i [])))) &&
      (decide ((t.getD i []).length < numColsOf t) || rowHasFigureCell (t.getD i []))) =
      codeIncompleteCond t i := by
    unfold codeIncompleteCond citesThrough
    rw [take_succ_any t i hi]
    simp only [Bool.false_or]
    rfl
  have hin : (initFillState (trCount t) (numColsOf t)).headerRows = [] := rfl
  have hic : (initFillState (trCount t) (numColsOf t)).incompleteRows = [] := rfl
  have hsn : (initFillState (trCount t) (numColsOf t)).seenCites = false := rfl
  constructor
  · rw [hhdr, hin, hsn, List.nil_append, hdrListFrom_mem]
    constructor
    · rintro ⟨k, hk, hik, hc⟩
      have hki : k = i := by omega
      subst hki
      simp only [Nat.zero_add] at hc
      rw [← heq]
      rcases hc with hc | hc <;> rw [hc] <;> simp
    · intro hcl
      rw [← heq] at hcl
      simp only [Bool.or_eq_true] at hcl
      refine ⟨i, hi, by omega, ?_⟩
      simp only [Nat.zero_add]
      exact hcl
  · rw [hinc, hic, hsn, List.nil_append, incListFrom_mem]
    constructor
    · rintro ⟨k, hk, hp, hc⟩
      have hki : k = i := by
        have := congrArg Prod.fst hp
        simp at this
        omega
      subst hki
      rw [← heq2]
      exact hc
    · intro hcode
      rw [← heq2] at hcode
      exact ⟨i, hi, by simp, hcode⟩

/-- Witness instantiating `c2_amended` at row 1 of the concrete tree. -/
theorem c2_amended_witness :
    (1 ∈ (FillState.mk [["{{figure:1}}", "a", ""], ["x", "y", "z"]] [0, 0, 1] [] false).headerRows
        ↔ claimHeaderCond c2Tree 1 = true) ∧
      ((1, (c2Tree.getD 1 []).map Cell.text) ∈
          (FillState.mk [["{{figure:1}}", "a", ""], ["x", "y", "z"]] [0, 0, 1] [] false).incompleteRows
        ↔ codeIncompleteCond c2Tree 1 = true) :=
  c2_amended c2Tree ⟨[["{{figure:1}}", "a", ""], ["x", "y", "z"]], [0, 0, 1], [], false⟩ rfl 1
    (by decide)

/- ---------------------------------------------------------------- -/
/- extract_tables.py: header merging and the pandas stage           -/
/- ---------------------------------------------------------------- -/

/-- `merge_rows` cell merge (extract_tables.py:472-483): keep the first
value if equal or the second is blank, the second if the first is
blank, else join with a hyphen; `zip` truncates at the shorter row. -/
def merge_rows_vals (a b : List String) : List String :=
  (a.zip b).map (fun p =>
    if p.1 == p.2 || pyStrip p.2 == "" then p.1
    else if pyStrip p.1 == "" then p.2
    else p.1 ++ "-" ++ p.2)

/-- One `merge_rows(table, 0, 1)` call.  (On a grid with fewer than two
rows the source would raise `IndexError`; that is unreachable because
the merge count is strictly below the row count.) -/
def mergeFirstTwo (g : List (List String)) : List (List String) :=
  match g with
  | a :: b :: rest => merge_rows_vals a b :: rest
  | g => g

/-- `for _ in range(max(header_rows)): table = merge_rows(table, 0, 1)`. -/
def iterMerge : Nat → List (List String) → List (List String)
  | 0, g => g
  | n + 1, g => iterMerge n (mergeFirstTwo g)

/-- A pandas data frame, column-oriented: an ordered list of
`(column name, values)` pairs; duplicate names are kept as independent
entries. -/
structure Df where
  cols : List (String × List String)
  deriving Repr, DecidableEq

/-- The column names, in order. -/
def dfNames (df : Df) : List String := df.cols.map Prod.fst

/-- `pd.DataFrame(rows, columns=hdr)`: column `j` holds the `j`-th entry
of each data row (all rows have length `hdr.length` at the call site). -/
def mkDf (hdr : List String) (dataRows : List (List String)) : Df :=
  ⟨hdr.enum.map (fun p => (p.2, dataRows.map (fun r => r.getD p.1 "")))⟩

/-- `df.rename(columns={old: new})`: renames every column with that name. -/
def renameCols (df : Df) (old new : String) : Df :=
  ⟨df.cols.map (fun p => if p.1 == old then (new, p.2) else p)⟩

/-- `df[name] = vs`: replaces the values of every column with that name
(the name is always present at the call sites). -/
def setCol (df : Df) (n : String) (vs : List String) : Df :=
  ⟨df.cols.map (fun p => if p.1 == n then (n, vs) else p)⟩

/-- The transpose branch of `postprocess_table_df`
(extract_tables.py:409-418): `set_index` on the first column,
`transpose`, then `reset_index` named after the original first column.
`reset_index(names=...)` raises `ValueError` when that name is already a
column of the transposed frame (i.e. a first-column value), in which
case the source transposes back, which restores the original frame. -/
def transposeDf (df : Df) : Df :=
  match df.cols with
  | [] => df
  | (c0, v0) :: rest =>
    if v0.contains c0 then df
    else
      ⟨(c0, rest.map Prod.fst) ::
        v0.enum.map (fun p => (p.2, rest.map (fun q => q.2.getD p.1 "")))⟩

/-- The ordered color-word alternatives of the `COLORS` regex
(extract_tables.py:231), in the order the regex engine tries them:
`((alice)?blue|black|(mid)?gr[ae]y|red|(dark)?green|tablewhite|tableblue)`
with optional groups tried present-first and `[ae]` tried `a`-first. -/
def colorWords : List String :=
  ["aliceblue", "blue", "black", "midgray", "midgrey", "gray", "grey", "red",
    "darkgreen", "green", "tablewhite", "tableblue"]

/-- The `COLORS_RE` suffix `(\!\d\d?|(?=[✗✓]))`: `!` with one or two
digits (consumed), or a lookahead at a check/cross glyph (zero width). -/
def colorSuffixLen : List Char → Option Nat
  | '!' :: d1 :: d2 :: _ => if d1.isDigit then some (if d2.isDigit then 3 else 2) else none
  | ['!', d1] => if d1.isDigit then some 2 else none
  | c :: _ => if c == '✗' || c == '✓' then some 0 else none
  | [] => none

/-- Try to match `COLORS_RE` at this position; returns the consumed
length.  At most one color word can match at a given position, so
trying them in alternation order is the regex behaviour. -/
def tryColorLen (s : List Char) : Option Nat :=
  (colorWords.filterMap (fun w =>
    if leadMatch w.toList s then
      (colorSuffixLen (s.drop w.toList.length)).map (fun n => w.toList.length + n)
    else none)).head?

/-- `re.sub(COLORS_RE, "", s)`: remove every match, scanning left to
right. -/
def colorsReSubAux : Nat → List Char → List Char
  | 0, s => s
  | _ + 1, [] => []
  | fuel + 1, c :: rest =>
    match tryColorLen (c :: rest) with
    | some n => colorsReSubAux fuel ((c :: rest).drop (max n 1))
    | none => c :: colorsReSubAux fuel rest

/-- `re.sub(COLORS_RE, "", s)` on strings. -/
def colorsReSub (s : String) : String := ⟨colorsReSubAux s.toList.length s.toList⟩

/-- `re.sub(rf"^{COLORS}", "", s)`: strip one leading color word. -/
def stripLeadColor (s : String) : String :=
  match colorWords.find? (fun w => leadMatch w.toList s.toList) with
  | some w => ⟨s.toList.drop w.toList.length⟩
  | none => s

/-- `re.sub(r"^\d\d+em", "", s)`: strip a leading run of two or more
digits followed by `em`. -/
def stripFontSize (s : String) : String :=
  if 2 ≤ (s.toList.takeWhile Char.isDigit).length &&
      leadMatch ['e', 'm'] (s.toList.drop (s.toList.takeWhile Char.isDigit).length) then
    ⟨s.toList.drop ((s.toList.takeWhile Char.isDigit).length + 2)⟩
  else s

/-- `process_cell` (extract_tables.py:420-460): the fixed cell-text
normalization chain. -/
def process_cell (cell : String) : String :=
  let c1 := subMany [" "] " " cell
  let c2 := pyStrip c1
  let c3 := subMany ["’"] "'" c2
  let c4 := if c3 == "X" then "✗" else c3
  let c5 := if c4 == "tablered" then "no" else c4
  let c6 := subMany ["✔"] "✓" c5
  let c7 := if c6 == "tablegreen" then "yes" else c6
  let c8 := colorsReSub c7
  let c9 := stripLeadColor c8
  let c10 := subMany ["[c]", "[l]"] "" c9
  let c11 := stripFontSize c10
  let c12 := subMany ["N/A", "none"] "-" c11
  let c13 := pyStrip c12
  if c13 == "" then "-" else c13

/-- Apply `process_cell` to every cell and every column name. -/
def dfMapCells (f : String → String) (df : Df) : Df :=
  ⟨df.cols.map (fun p => (f p.1, p.2.map f))⟩

/-- The citation-count loop of `split_references_column`
(extract_tables.py:343-351): track the position of the first strictly
maximal marker count, starting from `(column 0, count -1)`. -/
def pickSourceAux : Nat → Nat × Int → List Nat → Nat × Int
  | _, best, [] => best
  | i, best, c :: cs =>
    pickSourceAux (i + 1) (if (c : Int) > best.2 then (i, (c : Int)) else best) cs

/-- The selected source-column position. -/
def pickSourceIdx (counts : List Nat) : Nat := (pickSourceAux 0 (0, -1) counts).1

/-- Number of marker-bearing cells of a column. -/
def colCiteCount (vs : List String) : Nat := vs.countP (fun v => (citeSearch v.toList).isSome)

/-- The reference-identifier column and the surviving remainders
(extract_tables.py:359-372): a marker-bearing cell contributes the
matched marker and its stripped remainder (a dash if the remainder is
the empty string before stripping); a cell without a marker contributes
`no_cite-<n>` and its unmodified text. -/
def buildRefsCol : Nat → List String → List String × List String
  | _, [] => ([], [])
  | k, v :: vs =>
    match citeSearch v.toList with
    | none =>
      (("no_cite-" ++ toString k) :: (buildRefsCol (k + 1) vs).1,
        v :: (buildRefsCol (k + 1) vs).2)
    | some id =>
      (citeMarker id :: (buildRefsCol k vs).1,
        pyStrip (if subMany [citeMarker id] "" v == "" then "-"
          else subMany [citeMarker id] "" v) :: (buildRefsCol k vs).2)

/-- The position of the column with the most marker-bearing cells. -/
def srcIdxOf (df : Df) : Nat := pickSourceIdx (df.cols.map (fun p => colCiteCount p.2))

/-- The selected source column's name. -/
def srcNameOf (df : Df) : String := (df.cols.getD (srcIdxOf df) ("", [])).1

/-- The identifiers extracted from the source column. -/
def srcRefs (df : Df) : List String := (buildRefsCol 0 (df.cols.getD (srcIdxOf df) ("", [])).2).1

/-- The surviving remainders of the source column. -/
def srcRemainders (df : Df) : List String :=
  (buildRefsCol 0 (df.cols.getD (srcIdxOf df) ("", [])).2).2

/-- `split_references_column` (extract_tables.py:334-398).  The
`isinstance(..., DataFrame)` aggregation branch is unreachable because
positional `iloc` selection always yields a single column.  `error` is
the `ValueError` raised by `insert(0, "References", ...)` when a column
named "References" still exists at that point.  The all-dash branch's
`table_df[reordered_cols]` is a pandas label-list selection: each label
MENTION selects every column bearing that label in frame order, so over
non-unique column names a repeated non-source name is selected once per
mention and its columns are duplicated in the result. -/
def split_references_column (df : Df) : Except Unit (Df × String) :=
  if (srcRemainders df).any (fun v => v != "-") then
    if srcNameOf df == "References" then
      if (dfNames (setCol (renameCols df "References" "References_OLD") "References_OLD"
          (srcRemainders df))).contains "References" then .error ()
      else
        .ok (⟨("References", srcRefs df) ::
          (setCol (renameCols df "References" "References_OLD") "References_OLD"
            (srcRemainders df)).cols⟩, "References_OLD")
    else
      if (dfNames (setCol df (srcNameOf df) (srcRemainders df))).contains "References" then
        .error ()
      else
        .ok (⟨("References", srcRefs df) ::
          (setCol df (srcNameOf df) (srcRemainders df)).cols⟩, srcNameOf df)
  else
    .ok (⟨("References" ::
        (dfNames (renameCols df (srcNameOf df) "References")).filter
          (fun c => c != "References")).flatMap
      (fun l => (renameCols df (srcNameOf df) "References").cols.filter
        (fun p => p.1 == l))⟩, srcNameOf df)

/-- `postprocess_table_df` (extract_tables.py:401-469): transpose when
the joined column names contain a citation marker, normalize every cell
and column name, then split out the "References" column. -/
def postprocess_table_df (df : Df) : Except Unit (Df × String) :=
  split_references_column (dfMapCells process_cell
    (if strHas (String.intercalate " " (dfNames df)) "\x7b\x7bcite:" then transposeDf df else df))

/-- Insert with overwrite, keeping the original key position (Python
dict semantics for the `to_dict(orient="list")` comprehension; a
duplicated column name keeps its first position with the last column's
values, matching the pandas items iteration). -/
def dictUpsert (d : List (String × List String)) (k : String) (v : List String) :
    List (String × List String) :=
  if d.any (fun p => p.1 == k) then d.map (fun p => if p.1 == k then (k, v) else p)
  else d ++ [(k, v)]

/-- `df.to_dict(orient="list")`. -/
def dfToDict (df : Df) : List (String × List String) :=
  df.cols.foldl (fun d p => dictUpsert d p.1 p.2) []

/-- The result record of `soup_to_json`: the filled grid, the
incomplete rows, the recorded old citation-column name, and the
column-oriented `table_dict` (empty = the empty-result sentinel). -/
structure SoupJson where
  table : List (List String)
  incompleteRows : List (Nat × List String)
  oldCitationColumn : Option String
  tableDict : List (String × List String)
  deriving Repr, DecidableEq

/-- `soup_to_json` (extract_tables.py:486-617).  `error` models an
exception escaping (e.g. `max()` of an empty sequence on a rowless
tree, or the `ValueError` of the reference split); the out-of-range
multi-row propagation instead RETURNS the sentinel record with an empty
`table_dict`, as does an all-empty grid. -/
def soup_to_json (t : SoupTree) : Except Unit SoupJson :=
  if t.isEmpty then .error ()
  else
    match soupFill t with
    | .error st => .ok ⟨st.grid, st.incompleteRows, none, []⟩
    | .ok st =>
      match (if st.headerRows.isEmpty then st.grid
          else iterMerge (st.headerRows.foldl Nat.max 0) st.grid).filter
          (fun row => row.any (fun v => v != "")) with
      | [] => .ok ⟨[], st.incompleteRows, none, []⟩
      | hdr :: dataRows =>
        match postprocess_table_df (mkDf hdr dataRows) with
        | .error e => .error e
        | .ok (df, oldName) =>
          .ok ⟨hdr :: dataRows, st.incompleteRows, some oldName, dfToDict df⟩

/- ---------------------------------------------------------------- -/
/- C3                                                               -/
/- ---------------------------------------------------------------- -/

/-- A 3-row tree whose row-0 column-0 cell is "3*foo". -/
def c3Tree : SoupTree :=
  [[⟨"3*foo", 1, []⟩, ⟨"h", 1, []⟩],
    [⟨"", 1, []⟩, ⟨"a", 1, []⟩],
    [⟨"", 1, []⟩, ⟨"b", 1, []⟩]]

/-- A 2-row tree whose "3*foo" cell propagates past the last row. -/
def c3ShortTree : SoupTree := [[⟨"3*foo", 1, []⟩], [⟨"x", 1, []⟩]]

/-- C3: the leading "3*" row-span marker is stripped — "foo" fills row
0 column 0 — and the remaining text is propagated into rows 1 and 2 of
column 0 and nowhere else; when the propagation target is out of range
(the 2-row tree), reconstruction returns the empty-`table_dict`
sentinel record instead of raising past the Reconstructor. -/
theorem c3_theorem :
    soupFill c3Tree = .ok ⟨[["foo", "h"], ["foo", "a"], ["foo", "b"]], [0, 1], [], false⟩ ∧
      soup_to_json c3ShortTree = .ok ⟨[[""], ["foo"]], [], none, []⟩ :=
  ⟨rfl, rfl⟩

/- ---------------------------------------------------------------- -/
/- C4                                                               -/
/- ---------------------------------------------------------------- -/

/-- Claim C4's bottom line: on every nonempty frame the split succeeds
and the resulting first column is named "References". -/
def claimC4 : Prop :=
  ∀ df : Df, df.cols ≠ [] →
    ∃ r nm, split_references_column df = .ok (r, nm) ∧ (dfNames r).head? = some "References"

/-- Source column "A" has a marker with a non-dash remainder, and a
different column is already named "References". -/
def c4Df : Df := ⟨[("A", ["{{cite:aaaaaaa}}x"]), ("References", ["z"])]⟩

/-- C4 counterexample: with a non-source column named "References" and
non-dash remainders, the insert of the new "References" column raises
`ValueError` (no rename to "References_OLD" happens — the source only
renames when the SOURCE column is named "References"), so no table is
produced at all. -/
theorem c4_counterexample : ¬ claimC4 := by
  intro h
  obtain ⟨r, nm, hr, _⟩ := h c4Df (by simp [c4Df])
  rw [show split_references_column c4Df = .error () from rfl] at hr
  cases hr

/-- Position tracking of the strict-max fold: the result is the initial
best or one of the scanned positions. -/
theorem pickSourceAux_cases (cs : List Nat) :
    ∀ (i : Nat) (best : Nat × Int),
      (pickSourceAux i best cs).1 = best.1 ∨
        ∃ k, k < cs.length ∧ (pickSourceAux i best cs).1 = i + k := by
  induction cs with
  | nil => intro i best; exact Or.inl rfl
  | cons c cs ih =>
    intro i best
    unfold pickSourceAux
    by_cases h : ((c : Int) > best.2)
    · rw [if_pos h]
      rcases ih (i + 1) (i, (c : Int)) with h2 | ⟨k, hk, h2⟩
      · right; exact ⟨0, by simp, by simpa using h2⟩
      · right; exact ⟨k + 1, by simpa using hk, by omega⟩
    · rw [if_neg h]
      rcases ih (i + 1) best with h2 | ⟨k, hk, h2⟩
      · exact Or.inl h2
      · right; exact ⟨k + 1, by simpa using hk, by omega⟩

/-- On a nonempty count list the selected position is in range (the
first count always beats the initial `-1`). -/
theorem pickSourceIdx_lt (c : Nat) (cs : List Nat) :
    pickSourceIdx (c :: cs) < (c :: cs).length := by
  unfold pickSourceIdx pickSourceAux
  have hc : ((c : Int) > (-1 : Int)) := by omega
  rw [if_pos hc]
  rcases pickSourceAux_cases cs 1 (0, (c : Int)) with h | ⟨k, hk, h⟩
  · rw [h]; simp
  · rw [h]; simp; omega

/-- The source-column position is in range for a nonempty frame. -/
theorem srcIdxOf_lt (df : Df) (h : df.cols ≠ []) : srcIdxOf df < df.cols.length := by
  unfold srcIdxOf
  cases hc : df.cols with
  | nil => exact absurd hc h
  | cons p ps =>
    have := pickSourceIdx_lt (colCiteCount p.2) (ps.map (fun q => colCiteCount q.2))
    simpa using this

/-- The source-column name is one of the frame's column names. -/
theorem srcNameOf_mem (df : Df) (h : df.cols ≠ []) : srcNameOf df ∈ dfNames df := by
  unfold srcNameOf dfNames
  have hlt := srcIdxOf_lt df h
  refine List.mem_map.mpr ⟨df.cols.getD (srcIdxOf df) ("", []), ?_, rfl⟩
  rw [List.getD_eq_getElem _ _ hlt]
  exact List.getElem_mem _

/-- `df[name] = vs` does not change the column names. -/
theorem dfNames_setCol (df : Df) (n : String) (vs : List String) :
    dfNames (setCol df n vs) = dfNames df := by
  unfold dfNames setCol
  simp only [List.map_map]
  apply List.map_congr_left
  intro p _
  by_cases h : (p.1 == n) = true
  · simp only [Function.comp, h, if_pos]
    exact (beq_iff_eq.mp h).symm
  · simp [Function.comp, h]

/-- Renaming the source column to "References" puts "References" among
the names whenever the source name is present. -/
theorem refs_mem_rename (df : Df) (old : String) (h : old ∈ dfNames df) :
    "References" ∈ dfNames (renameCols df old "References") := by
  unfold dfNames at *
  obtain ⟨p, hp, hp1⟩ := List.mem_map.mp h
  unfold renameCols
  simp only [List.map_map]
  refine List.mem_map.mpr ⟨p, hp, ?_⟩
  simp [Function.comp, hp1]

/-- After renaming every "References" column to "References_OLD", no
column is named "References" any more. -/
theorem refs_not_mem_rename (df : Df) :
    "References" ∉ dfNames (renameCols df "References" "References_OLD") := by
  unfold dfNames renameCols
  simp only [List.map_map, List.mem_map]
  rintro ⟨p, hp, hfst⟩
  by_cases h : (p.1 == "References") = true
  · simp only [Function.comp, h, if_pos] at hfst
    exact absurd hfst (by decide)
  · simp only [Function.comp] at hfst
    rw [if_neg h] at hfst
    exact absurd (beq_iff_eq.mpr hfst) h

/-- A label-list selection only draws columns already in the frame
(pandas `df[labels]` never creates a new column). -/
theorem select_mem (cols : List (String × List String)) (labels : List String)
    (p : String × List String)
    (h : p ∈ labels.flatMap (fun l => cols.filter (fun q => q.1 == l))) : p ∈ cols := by
  obtain ⟨l, hl, hp⟩ := List.mem_flatMap.mp h
  exact (List.mem_filter.mp hp).1

/-- The References-first label selection puts a column named
"References" first whenever one exists. -/
theorem head_refs_select (cols : List (String × List String)) (rest : List String)
    (h : "References" ∈ cols.map Prod.fst) :
    ((("References" :: rest).flatMap
      (fun l => cols.filter (fun p => p.1 == l))).map Prod.fst).head? =
      some "References" := by
  simp only [List.flatMap_cons]
  obtain ⟨p, hp, hp1⟩ := List.mem_map.mp h
  cases hf : cols.filter (fun p => p.1 == "References") with
  | nil =>
    exfalso
    have hm : p ∈ cols.filter (fun p => p.1 == "References") :=
      List.mem_filter.mpr ⟨hp, by simp [hp1]⟩
    rw [hf] at hm
    cases hm
  | cons q qs =>
    have hq : q ∈ cols.filter (fun p => p.1 == "References") := by rw [hf]; simp
    have hq1 := (List.mem_filter.mp hq).2
    simp only [List.cons_append, List.map_cons, List.head?_cons]
    exact congrArg some (beq_iff_eq.mp hq1)

/-- With pairwise-distinct column names, selecting the non-References
labels in order returns exactly the non-References columns (each label
mention then matches a single column). -/
theorem bind_filter_eq (cols : List (String × List String))
    (hnd : (cols.map Prod.fst).Nodup) :
    ((cols.map Prod.fst).filter (fun c => c != "References")).flatMap
      (fun l => cols.filter (fun p => p.1 == l)) =
    cols.filter (fun p => p.1 != "References") := by
  induction cols with
  | nil => rfl
  | cons p cs ih =>
    simp only [List.map_cons, List.nodup_cons] at hnd
    obtain ⟨hnm, hnd2⟩ := hnd
    by_cases hp : (p.1 == "References") = true
    · have hpe := beq_iff_eq.mp hp
      rw [List.map_cons, List.filter_cons]
      have hcond : (p.1 != "References") = false := by simp [hpe]
      rw [hcond, if_neg (by simp)]
      rw [List.filter_cons, hcond, if_neg (by simp)]
      rw [← ih hnd2]
      apply List.flatMap_congr
      intro l hl
      have hlr : (l != "References") = true := (List.mem_filter.mp hl).2
      rw [List.filter_cons]
      have hne : (p.1 == l) = false := by
        rw [hpe]
        cases hle : ("References" == l)
        · rfl
        · rw [beq_iff_eq.mp hle] at hlr
          simp at hlr
      rw [hne, if_neg (by simp)]
    · have hpe : p.1 ≠ "References" := fun he => hp (beq_iff_eq.mpr he)
      rw [List.map_cons, List.filter_cons]
      have hcond : (p.1 != "References") = true := by simp [hpe]
      rw [hcond, if_pos rfl]
      rw [List.flatMap_cons]
      rw [List.filter_cons, show (p.1 == p.1) = true from beq_iff_eq.mpr rfl, if_pos rfl]
      have hnil : cs.filter (fun q => q.1 == p.1) = [] := by
        rw [List.filter_eq_nil_iff]
        intro q hq hqe
        exact hnm (List.mem_map.mpr ⟨q, hq, beq_iff_eq.mp hqe⟩)
      rw [hnil]
      rw [List.filter_cons, hcond, if_pos rfl]
      refine congrArg (p :: ·) ?_
      rw [← ih hnd2]
      apply List.flatMap_congr
      intro l hl
      have hlm : l ∈ cs.map Prod.fst := (List.mem_filter.mp hl).1
      rw [List.filter_cons]
      have hne : (p.1 == l) = false := by
        cases hle : (p.1 == l)
        · rfl
        · exact absurd (beq_iff_eq.mp hle ▸ hlm) hnm
      rw [hne, if_neg (by simp)]

/-- Filtering on a predicate and its negation partitions the length. -/
theorem filter_partition_length {α : Type} (l : List α) (p : α → Bool) :
    ((l.filter p).length + (l.filter (fun x => !(p x))).length) = l.length := by
  induction l with
  | nil => rfl
  | cons a l ih => by_cases h : p a = true <;> simp [h, ← ih] <;> omega

/-- C4 (amended): (1) whenever the split returns a table its first
column is named "References"; (2) when the remainders are not all
dashes and a column named "References" exists that is NOT the source
column, the insert fails with `ValueError` for that table (no rename
occurs); (3) the rename to "References_OLD" happens exactly when the
SOURCE column is itself named "References", and then the new first
column is "References"; (4) when every surviving remainder is the dash
placeholder the source column is renamed to "References" and moved
first, no residual remainder column is added (every output column is a
column of the renamed frame), and — whenever the renamed frame's
column names are pairwise distinct — the column count is unchanged
(over duplicated names the pandas label-list reorder selects each
duplicate once per mention, so the count can grow). -/
theorem c4_amended :
    (∀ (df : Df) (r : Df) (nm : String), df.cols ≠ [] →
        split_references_column df = .ok (r, nm) →
        (dfNames r).head? = some "References") ∧
      (∀ df : Df, (srcRemainders df).any (fun v => v != "-") = true →
        srcNameOf df ≠ "References" → "References" ∈ dfNames df →
        split_references_column df = .error ()) ∧
      (∀ df : Df, (srcRemainders df).any (fun v => v != "-") = true →
        srcNameOf df = "References" →
        ∃ r : Df, split_references_column df = .ok (r, "References_OLD") ∧
          (dfNames r).head? = some "References") ∧
      (∀ df : Df, df.cols ≠ [] →
        (srcRemainders df).any (fun v => v != "-") = false →
        ∃ r : Df, split_references_column df = .ok (r, srcNameOf df) ∧
          (dfNames r).head? = some "References" ∧
          (∀ p, p ∈ r.cols → p ∈ (renameCols df (srcNameOf df) "References").cols) ∧
          ((dfNames (renameCols df (srcNameOf df) "References")).Nodup →
            r.cols.length = df.cols.length)) := by
  refine ⟨?_, ?_, ?_, ?_⟩
  · intro df r nm hne h
    unfold split_references_column at h
    split at h
    · split at h
      · split at h
        · cases h
        · cases h
          rfl
      · split at h
        · cases h
        · cases h
          rfl
    · cases h
      exact head_refs_select _ _ (refs_mem_rename df (srcNameOf df) (srcNameOf_mem df hne))
  · intro df hany hnm hmem
    unfold split_references_column
    rw [if_pos hany, if_neg (by simp [hnm]), if_pos ?_]
    rw [dfNames_setCol]
    exact List.elem_eq_true_of_mem hmem
  · intro df hany hnm
    unfold split_references_column
    rw [if_pos hany, if_pos (by simp [hnm]),
      if_neg (by
        intro hc
        rw [dfNames_setCol] at hc
        exact refs_not_mem_rename df (List.mem_of_elem_eq_true hc))]
    exact ⟨_, rfl, rfl⟩
  · intro df hne hany
    unfold split_references_column
    rw [if_neg (by simp [hany])]
    refine ⟨_, rfl, ?_, ?_, ?_⟩
    · exact head_refs_select _ _ (refs_mem_rename df (srcNameOf df) (srcNameOf_mem df hne))
    · intro p hp
      exact select_mem _ _ p hp
    · intro hnd
      show (("References" ::
          (dfNames (renameCols df (srcNameOf df) "References")).filter
            (fun c => c != "References")).flatMap
        (fun l => (renameCols df (srcNameOf df) "References").cols.filter
          (fun p => p.1 == l))).length = df.cols.length
      simp only [List.flatMap_cons, dfNames] at hnd ⊢
      rw [bind_filter_eq _ hnd, List.length_append]
      have h1 := filter_partition_length (renameCols df (srcNameOf df) "References").cols
        (fun p => p.1 == "References")
      have hlen : (renameCols df (srcNameOf df) "References").cols.length = df.cols.length := by
        unfold renameCols
        simp
      rw [← hlen, ← h1]
      rfl

/-- Witness instantiating `c4_amended`: the collision case errors on
`c4Df`, and an all-dash source column is renamed in place — every
output column comes from the renamed frame and, the names being
distinct, the column count is preserved. -/
theorem c4_amended_witness :
    split_references_column c4Df = .error () ∧
      (∃ r : Df, split_references_column (⟨[("A", ["{{cite:bbbbbbb}}"])]⟩ : Df) =
        .ok (r, srcNameOf ⟨[("A", ["{{cite:bbbbbbb}}"])]⟩) ∧
        (dfNames r).head? = some "References" ∧
        (∀ p, p ∈ r.cols →
          p ∈ (renameCols (⟨[("A", ["{{cite:bbbbbbb}}"])]⟩ : Df)
            (srcNameOf ⟨[("A", ["{{cite:bbbbbbb}}"])]⟩) "References").cols) ∧
        r.cols.length = (⟨[("A", ["{{cite:bbbbbbb}}"])]⟩ : Df).cols.length) := by
  refine ⟨c4_amended.2.1 c4Df (by decide) (by decide) (by decide), ?_⟩
  obtain ⟨r, h1, h2, h3, h4⟩ :=
    c4_amended.2.2.2 ⟨[("A", ["{{cite:bbbbbbb}}"])]⟩ (by decide) (by decide)
  exact ⟨r, h1, h2, h3, h4 (by decide)⟩

/- ---------------------------------------------------------------- -/
/- extract_tables.py: Row-to-Bibliography Mapper                    -/
/- ---------------------------------------------------------------- -/

/-- One row_bib_map entry: bib_hash_or_arxiv_id, row index, corpus id
(sentinel -1 until resolved), role type ("ref"/"ours"), and the
title/abstract fields added by the input_papers merge (`none` = the key
is absent from the dict, `some none` = present but null). -/
structure BibRow where
  bibHashOrArxivId : String
  row : Nat
  corpusId : Int
  type : String
  title : Option (Option String) := none
  abstract : Option (Option String) := none
  deriving Repr, DecidableEq

/-- `cite_id_map = {bib_ref[:7]: bib_ref for bib_ref in bib_hashes if
bib_ref is not None}` (extract_tables.py:634).  A Python dict
comprehension lets later bindings overwrite earlier ones, so lookup
takes the LAST binding for a prefix. -/
def citeIdMap (bibHashes : List (Option String)) : List (String × String) :=
  bibHashes.filterMap (fun o => o.map (fun r => ((⟨r.toList.take 7⟩ : String), r)))

/-- Lookup with last-binding-wins dict semantics. -/
def lookupLast (m : List (String × String)) (k : String) : Option String :=
  (m.reverse.find? (fun p => p.1 == k)).map Prod.snd

/-- The row loop of `get_table_row_bib_map` (extract_tables.py:637-664):
threads the row index and the current "ours" candidate; a marker whose
prefix is missing from the map raises `KeyError` (`error`). -/
def bibMapLoop (cmap : List (String × String)) (pid : String) :
    Nat → Option BibRow → List String → Except Unit (List BibRow × Option BibRow)
  | _, ours, [] => .ok ([], ours)
  | i, ours, v :: vs =>
    match citeSearch v.toList with
    | none =>
      if strHas (strLower v) "standard" then bibMapLoop cmap pid (i + 1) ours vs
      else bibMapLoop cmap pid (i + 1) (some ⟨pid, i, -1, "ours", none, none⟩) vs
    | some id =>
      match lookupLast cmap id with
      | none => .error ()
      | some bib =>
        match bibMapLoop cmap pid (i + 1) ours vs with
        | .error e => .error e
        | .ok (l, o) => .ok (⟨bib, i, -1, "ref", none, none⟩ :: l, o)

/-- `get_table_row_bib_map` (extract_tables.py:620-668): iterate the
first column of the table dict; `error` on an empty dict
(`table_df.columns[0]` raises `IndexError`) or an unresolvable marker. -/
def get_table_row_bib_map (tableDict : List (String × List String))
    (bibHashes : List (Option String)) (paperId : String) : Except Unit (List BibRow) :=
  match tableDict with
  | [] => .error ()
  | (_, vals) :: _ =>
    match bibMapLoop (citeIdMap bibHashes) paperId 0 none vals with
    | .error e => .error e
    | .ok (l, ours) => .ok (l ++ (match ours with | some o => [o] | none => []))

/-- Spec-side: the `ref` entries, one per marker-bearing row, in row
order. -/
def specRefEntries (cmap : List (String × String)) (vals : List String) : List BibRow :=
  (vals.enum).filterMap (fun p =>
    match citeSearch p.2.toList with
    | some id => some ⟨(lookupLast cmap id).getD "", p.1, -1, "ref", none, none⟩
    | none => none)

/-- The candidate self rows among an enumerated column: no marker and
no "standard". -/
def filterCands (l : List (Nat × String)) : List (Nat × String) :=
  l.filter (fun p => (citeSearch p.2.toList).isNone && !(strHas (strLower p.2) "standard"))

/-- The self entry determined by the last of a candidate list, falling
back to a previous candidate. -/
def selfOfLast (pid : String) (ours : Option BibRow) (l : List (Nat × String)) :
    Option BibRow :=
  match l.getLast? with
  | some p => some ⟨pid, p.1, -1, "ours", none, none⟩
  | none => ours

/-- Spec-side: the single self entry from the LAST candidate self row
(no marker, no "standard"), if any. -/
def specSelfEntries (pid : String) (vals : List String) : List BibRow :=
  match selfOfLast pid none (filterCands vals.enum) with
  | some o => [o]
  | none => []

/-- The loop's ref accumulator, with explicit index offset. -/
def refsFrom (cmap : List (String × String)) : Nat → List String → List BibRow
  | _, [] => []
  | i, v :: vs =>
    match citeSearch v.toList with
    | some id => ⟨(lookupLast cmap id).getD "", i, -1, "ref", none, none⟩ :: refsFrom cmap (i + 1) vs
    | none => refsFrom cmap (i + 1) vs

/-- The loop's "ours" accumulator, with explicit index offset. -/
def lastSelf (pid : String) : Nat → Option BibRow → List String → Option BibRow
  | _, ours, [] => ours
  | i, ours, v :: vs =>
    match citeSearch v.toList with
    | some _ => lastSelf pid (i + 1) ours vs
    | none =>
      if strHas (strLower v) "standard" then lastSelf pid (i + 1) ours vs
      else lastSelf pid (i + 1) (some ⟨pid, i, -1, "ours", none, none⟩) vs

/-- When every marker resolves, the loop returns exactly the offset
ref list and the last self candidate. -/
theorem bibMapLoop_spec (cmap : List (String × String)) (pid : String) (vals : List String) :
    ∀ (i : Nat) (ours : Option BibRow),
      (∀ v ∈ vals, ∀ id, citeSearch v.toList = some id → (lookupLast cmap id).isSome) →
      bibMapLoop cmap pid i ours vals = .ok (refsFrom cmap i vals, lastSelf pid i ours vals) := by
  induction vals with
  | nil => intro i ours _; rfl
  | cons v vs ih =>
    intro i ours h
    unfold bibMapLoop refsFrom lastSelf
    cases hc : citeSearch v.toList with
    | none =>
      by_cases hs : strHas (strLower v) "standard" = true
      · rw [if_pos hs, if_pos hs]
        exact ih (i + 1) ours (fun w hw => h w (by simp [hw]))
      · rw [if_neg hs, if_neg hs]
        exact ih (i + 1) _ (fun w hw => h w (by simp [hw]))
    | some id =>
      have hsome := h v (by simp) id hc
      cases hl : lookupLast cmap id with
      | none => rw [hl] at hsome; cases hsome
      | some bib =>
        rw [ih (i + 1) ours (fun w hw => h w (by simp [hw]))]
        simp [hl]

/-- The offset ref list agrees with the enumeration-based spec list. -/
theorem refsFrom_eq_enum (cmap : List (String × String)) (vals : List String) :
    ∀ i, refsFrom cmap i vals = (vals.enumFrom i).filterMap (fun p =>
      match citeSearch p.2.toList with
      | some id => some ⟨(lookupLast cmap id).getD "", p.1, -1, "ref", none, none⟩
      | none => none) := by
  induction vals with
  | nil => intro i; rfl
  | cons v vs ih =>
    intro i
    unfold refsFrom
    cases hc : citeSearch v.toList with
    | none =>
      have hc2 : citeSearch v.data = none := hc
      simp [List.enumFrom, List.filterMap_cons, hc2, ih (i + 1)]
    | some id =>
      have hc2 : citeSearch v.data = some id := hc
      simp [List.enumFrom, List.filterMap_cons, hc2, ih (i + 1)]

/-- Last-candidate folding over a cons. -/
theorem selfOfLast_cons (pid : String) (ours : Option BibRow) (q : Nat × String)
    (l : List (Nat × String)) :
    selfOfLast pid ours (q :: l) =
      selfOfLast pid (some ⟨pid, q.1, -1, "ours", none, none⟩) l := by
  unfold selfOfLast
  cases l with
  | nil => rfl
  | cons b bs =>
    rw [List.getLast?_cons_cons]
    cases hbl : (b :: bs).getLast? with
    | none => simp at hbl
    | some p => rfl

/-- The last-candidate accumulator agrees with `getLast?` over the
filtered enumeration. -/
theorem lastSelf_eq_enum (pid : String) (vals : List String) :
    ∀ (i : Nat) (ours : Option BibRow),
      lastSelf pid i ours vals = selfOfLast pid ours (filterCands (vals.enumFrom i)) := by
  induction vals with
  | nil => intro i ours; rfl
  | cons v vs ih =>
    intro i ours
    unfold lastSelf
    cases hc : citeSearch v.toList with
    | some id =>
      have hc2 : citeSearch v.data = some id := hc
      have hdrop : filterCands ((v :: vs).enumFrom i) = filterCands (vs.enumFrom (i + 1)) := by
        simp [filterCands, List.enumFrom, List.filter_cons, hc2]
      rw [ih (i + 1) ours, hdrop]
    | none =>
      have hc2 : citeSearch v.data = none := hc
      by_cases hs : strHas (strLower v) "standard" = true
      · have hdrop : filterCands ((v :: vs).enumFrom i) = filterCands (vs.enumFrom (i + 1)) := by
          simp [filterCands, List.enumFrom, List.filter_cons, hc2, hs]
        rw [if_pos hs, ih (i + 1) ours, hdrop]
      · have hkeep : filterCands ((v :: vs).enumFrom i) =
            (i, v) :: filterCands (vs.enumFrom (i + 1)) := by
          simp [filterCands, List.enumFrom, List.filter_cons, hc2, bool_ne_true _ hs]
        rw [if_neg hs, ih (i + 1) (some ⟨pid, i, -1, "ours", none, none⟩), hkeep,
          selfOfLast_cons]

/- ---------------------------------------------------------------- -/
/- C6                                                               -/
/- ---------------------------------------------------------------- -/

/-- C6: on a table whose markers all resolve, `get_table_row_bib_map`
returns exactly the `ref` entries of the marker-bearing first-column
rows in row order, followed by at most one self ("ours") entry carrying
the containing document's id — the LAST candidate self row (rows whose
text contains "standard", case-insensitively, contribute nothing). -/
theorem c6_theorem (c0 : String) (vals : List String) (rest : List (String × List String))
    (bibHashes : List (Option String)) (pid : String)
    (hres : ∀ v ∈ vals, ∀ id : String, citeSearch v.toList = some id →
      (lookupLast (citeIdMap bibHashes) id).isSome) :
    get_table_row_bib_map ((c0, vals) :: rest) bibHashes pid =
      .ok (specRefEntries (citeIdMap bibHashes) vals ++ specSelfEntries pid vals) ∧
      (specRefEntries (citeIdMap bibHashes) vals ++ specSelfEntries pid vals).countP
        (fun r => r.type == "ours") ≤ 1 := by
  constructor
  · unfold get_table_row_bib_map
    dsimp only
    rw [bibMapLoop_spec (citeIdMap bibHashes) pid vals 0 none hres,
      refsFrom_eq_enum (citeIdMap bibHashes) vals 0, lastSelf_eq_enum pid vals 0 none]
    unfold specRefEntries specSelfEntries
    cases hS : selfOfLast pid none (filterCands (vals.enumFrom 0)) <;>
      simp [show vals.enum = vals.enumFrom 0 from rfl, hS]
  · rw [List.countP_append]
    have h1 : (specRefEntries (citeIdMap bibHashes) vals).countP
        (fun r => r.type == "ours") = 0 := by
      rw [List.countP_eq_zero]
      intro a ha
      obtain ⟨b, hb, hfb⟩ := List.mem_filterMap.mp ha
      revert hfb
      cases citeSearch b.2.toList with
      | none => intro hfb; cases hfb
      | some id =>
        intro hfb
        cases hfb
        simp
    have h2 : (specSelfEntries pid vals).countP (fun r => r.type == "ours") ≤ 1 := by
      unfold specSelfEntries
      cases selfOfLast pid none (filterCands vals.enum) with
      | none => simp
      | some o => exact (List.countP_le_length _)
    rw [h1]
    simpa using h2

/-- Witness instantiating `c6_theorem` on a concrete two-row column
(one resolvable marker row, one "ours" row). -/
theorem c6_witness :
    get_table_row_bib_map [("References", ["{{cite:bbbbbbb}}", "me"])]
        [some "bbbbbbbbbb"] "p1" =
      .ok (specRefEntries (citeIdMap [some "bbbbbbbbbb"]) ["{{cite:bbbbbbb}}", "me"] ++
        specSelfEntries "p1" ["{{cite:bbbbbbb}}", "me"]) ∧
      (specRefEntries (citeIdMap [some "bbbbbbbbbb"]) ["{{cite:bbbbbbb}}", "me"] ++
        specSelfEntries "p1" ["{{cite:bbbbbbb}}", "me"]).countP
        (fun r => r.type == "ours") ≤ 1 :=
  c6_theorem "References" ["{{cite:bbbbbbb}}", "me"] [] [some "bbbbbbbbbb"] "p1" (by
    intro v hv id hid
    have hv2 : v = "{{cite:bbbbbbb}}" ∨ v = "me" := by simpa using hv
    rcases hv2 with rfl | rfl
    · have hcomp : citeSearch ("{{cite:bbbbbbb}}" : String).toList = some "bbbbbbb" := rfl
      rw [hcomp] at hid
      cases hid
      decide
    · have hcomp : citeSearch ("me" : String).toList = none := rfl
      rw [hcomp] at hid
      cases hid)

/- ---------------------------------------------------------------- -/
/- extract_tables.py: Dataset Assembler (create_dataset)            -/
/- ---------------------------------------------------------------- -/

/-- A per-paper bibliographic record from `input_papers`. -/
structure PaperInfo where
  corpusId : Int
  title : Option String
  abstract : Option String
  deriving Repr, DecidableEq

/-- One element of the labeled-tables input of `create_dataset`.
Optional fields model optional JSON keys (`none` = key absent).  The
raw `table_html`/`xml` markup is represented by its soupified parse
tree (the string serialization is claim-irrelevant pass-through). -/
structure LabeledTable where
  paperId : String
  pdfHash : Option String := none
  sourceHash : Option String := none
  sourceName : Option String := none
  tableHash : String
  caption : Option String := none
  inTextRef : Option Bool := none
  labels : Option (List (String × Bool)) := none
  tree : SoupTree
  inputPapers : Option (List (String × PaperInfo)) := none
  deriving Repr, DecidableEq

/-- One output sample of `create_dataset`. -/
structure Sample where
  paperId : String
  pdfHash : Option String
  sourceHash : Option String
  sourceName : Option String
  tableHash : String
  caption : Option String
  inTextRef : Option Bool
  tableJson : SoupJson
  rowBibMap : List BibRow
  bibHash : List (Option String)
  labels : Option (List (String × Bool))
  deriving Repr, DecidableEq

/-- The label-filter loop (extract_tables.py:683-689): looks each
filter name up in the labels dict in order; a missing name raises
`KeyError` (uncaught), a false label skips the table. -/
def checkLabelsLoop (lbls : List (String × Bool)) : List String → Except Unit Bool
  | [] => .ok true
  | n :: ns =>
    match (lbls.find? (fun p => p.1 == n)).map Prod.snd with
    | none => .error ()
    | some true => checkLabelsLoop lbls ns
    | some false => .ok false

/-- Tables without labels are not filtered at all. -/
def checkLabels (labels : Option (List (String × Bool))) (filters : List String) :
    Except Unit Bool :=
  match labels with
  | none => .ok true
  | some lbls => checkLabelsLoop lbls filters

/-- `cite_shas = [cite.get("sha") for cite in table_soup.find_all("cit")]`
in document order. -/
def treeCiteShas (t : SoupTree) : List (Option String) :=
  (t.flatten.map Cell.cites).flatten

/-- The `input_papers` merge (extract_tables.py:736-745): rows whose
hash is found get corpus id/title/abstract populated; missing hashes
are collected (in row order) into the diagnostic list. -/
def mergeInputPapers (ip : Option (List (String × PaperInfo))) (rows : List BibRow) :
    List BibRow × List String :=
  match ip with
  | none => (rows, [])
  | some papers =>
    (rows.map (fun r =>
      match (papers.find? (fun p => p.1 == r.bibHashOrArxivId)).map Prod.snd with
      | none => r
      | some info =>
        { r with corpusId := info.corpusId, title := some info.title, abstract := some info.abstract }),
      rows.filterMap (fun r =>
        if (papers.find? (fun p => p.1 == r.bibHashOrArxivId)).isNone then
          some r.bibHashOrArxivId
        else none))

/-- `create_dataset` (extract_tables.py:671-753).  Returns the dataset,
the skipped table hashes and the missing bib hashes.  Only the
`soup_to_json` call sits inside the `try`/`except`: its exceptions
become the `{"table_dict": {}}` sentinel and the table is skipped with
its hash recorded; an exception from the label lookup or from
`get_table_row_bib_map` (the `KeyError` of an unresolvable 7-character
prefix) is uncaught and aborts the whole batch (`error`). -/
def create_dataset (filters : List String) :
    List LabeledTable → Except Unit (List Sample × List String × List String)
  | [] => .ok ([], [], [])
  | t :: ts =>
    match checkLabels t.labels filters with
    | .error e => .error e
    | .ok false => create_dataset filters ts
    | .ok true =>
      if (match soup_to_json t.tree with
          | .error _ => (⟨[], [], none, []⟩ : SoupJson)
          | .ok r => r).tableDict.isEmpty then
        match create_dataset filters ts with
        | .error e => .error e
        | .ok (s, sk, mb) => .ok (s, t.tableHash :: sk, mb)
      else
        match get_table_row_bib_map (match soup_to_json t.tree with
            | .error _ => (⟨[], [], none, []⟩ : SoupJson)
            | .ok r => r).tableDict (treeCiteShas t.tree) t.paperId with
        | .error e => .error e
        | .ok rbm =>
          match create_dataset filters ts with
          | .error e => .error e
          | .ok (s, sk, mb) =>
            .ok (⟨t.paperId, t.pdfHash, t.sourceHash, t.sourceName, t.tableHash,
              t.caption, t.inTextRef,
              (match soup_to_json t.tree with
                | .error _ => (⟨[], [], none, []⟩ : SoupJson)
                | .ok r => r),
              (mergeInputPapers t.inputPapers rbm).1, treeCiteShas t.tree, t.labels⟩ :: s,
              sk, (mergeInputPapers t.inputPapers rbm).2 ++ mb)

/- ---------------------------------------------------------------- -/
/- C1                                                               -/
/- ---------------------------------------------------------------- -/

/-- C1 as claimed: no per-table failure ever aborts the batch, so the
assembler always returns normally. -/
def claimC1 : Prop :=
  ∀ (filters : List String) (tables : List LabeledTable),
    ∃ out, create_dataset filters tables = .ok out

/-- A labeled table whose single body-row marker `{{cite:aaaaaaa}}` has
no entry in the 7-character-prefix map built from its cite shas
(`["bbbbbbbbbb"]` maps only the prefix "bbbbbbb"). -/
def c1Table : LabeledTable :=
  { paperId := "p1", tableHash := "h1",
    tree := [[⟨"A", 1, []⟩, ⟨"B", 1, []⟩],
      [⟨"{{cite:aaaaaaa}}", 1, [some "bbbbbbbbbb"]⟩, ⟨"x", 1, []⟩]] }

/-- C1 counterexample: `get_table_row_bib_map` sits outside the
assembler's try/except, so its unresolved-prefix KeyError aborts the
whole batch — `create_dataset` returns an error on `[c1Table]` instead
of skipping the table. -/
theorem c1_counterexample : ¬ claimC1 := by
  intro h
  obtain ⟨out, hout⟩ := h [] [c1Table]
  have heval : create_dataset [] [c1Table] = .error () := rfl
  rw [heval] at hout
  exact Except.noConfusion hout

/-- C1 (amended): only the `soup_to_json` call is guarded — when it
raises or yields an empty `table_dict`, the table's hash is recorded as
skipped and processing continues with the remaining tables; but when it
succeeds with a nonempty dict and `get_table_row_bib_map` fails (the
unresolved 7-character-prefix lookup), the failure is NOT caught and
the whole batch aborts. -/
theorem c1_amended (filters : List String) (t : LabeledTable) (ts : List LabeledTable)
    (hlab : checkLabels t.labels filters = .ok true) :
    ((soup_to_json t.tree = .error () ∨
        ∃ r, soup_to_json t.tree = .ok r ∧ r.tableDict = []) →
      create_dataset filters (t :: ts) =
        (create_dataset filters ts).map (fun o => (o.1, t.tableHash :: o.2.1, o.2.2))) ∧
    (∀ r, soup_to_json t.tree = .ok r → r.tableDict ≠ [] →
      get_table_row_bib_map r.tableDict (treeCiteShas t.tree) t.paperId = .error () →
      create_dataset filters (t :: ts) = .error ()) := by
  constructor
  · intro hcase
    simp only [create_dataset, hlab]
    rcases hcase with herr | ⟨r, hok, hnil⟩
    · rw [herr]
      simp only [List.isEmpty_nil, if_true]
      cases hd : create_dataset filters ts with
      | error e => rfl
      | ok o => obtain ⟨s, sk, mb⟩ := o; rfl
    · rw [hok, hnil]
      simp only [List.isEmpty_nil, if_true]
      cases hd : create_dataset filters ts with
      | error e => rfl
      | ok o => obtain ⟨s, sk, mb⟩ := o; rfl
  · intro r hok hne hbib
    simp only [create_dataset, hlab, hok]
    rw [if_neg (by simp [List.isEmpty_iff, hne]), hbib]

/-- Witness: on `[c1Table]` the amended theorem's second part fires and
the batch aborts with an error. -/
theorem c1_amended_witness : create_dataset [] [c1Table] = .error () :=
  (c1_amended [] c1Table [] rfl).2
    ⟨[["A", "B"], ["{{cite:aaaaaaa}}", "x"]], [], some "A",
      [("References", ["{{cite:aaaaaaa}}"]), ("B", ["x"])]⟩
    rfl (by decide) rfl

/- ---------------------------------------------------------------- -/
/- extract_tables.py: Quality Filter Pipeline                       -/
/- (get_high_quality_tables, lines 792-1010)                        -/
/- ---------------------------------------------------------------- -/

/-- A dataset record as consumed by `get_high_quality_tables`: the
fields of the assembler's sample that the pipeline reads.  `none` in
`caption`/`inTextRef` models an absent JSON key; `oldCitationColumn`
is the recorded `old_citation_column` (possibly null). -/
structure HQTable where
  tableHash : String
  caption : Option String := none
  inTextRef : Option Bool := none
  tableDict : List (String × List String)
  oldCitationColumn : Option String := none
  rowBibMap : List BibRow
  deriving Repr, DecidableEq

/-- Python `"\t".join([colname] + values)`. -/
def tabJoin (c : String) (vs : List String) : String :=
  vs.foldl (fun a v => a ++ "\t" ++ v) c

/-- Python `"\n".join(parts)`. -/
def nlJoin : List String → String
  | [] => ""
  | s :: ss => ss.foldl (fun a v => a ++ "\n" ++ v) s

/-- The `table_str` serialization of a `table_dict` (lines 816-821). -/
def tableStrOf (d : List (String × List String)) : String :=
  nlJoin (d.map (fun p => tabJoin p.1 p.2))

/-- `re.match(r"\d+$", col) is not None`: one or more digits spanning
the whole string, where Python `$` also matches just before a single
trailing newline. -/
def digitsEndMatch (s : String) : Bool :=
  match s.toList.reverse with
  | '\n' :: rest => !rest.isEmpty && rest.all Char.isDigit
  | rest => !rest.isEmpty && rest.all Char.isDigit

/-- `FLOAT_REGEX.search` for `FLOAT_REGEX = re.compile("\.\d")`: a dot
immediately followed by a digit, anywhere. -/
def floatReSearch : List Char → Bool
  | [] => false
  | '.' :: d :: rest => d.isDigit || floatReSearch (d :: rest)
  | _ :: rest => floatReSearch rest

/-- The unconditional removal rule of lines 902-909: every cell,
after deleting `and` and commas, strips to `-` or starts with a
citation-marker head. -/
def colRule1 (vs : List String) : Bool :=
  vs.all (fun cell => pyStrip cell == "-" ||
    leadMatch "\x7b\x7bcite:".toList (pyStrip (subMany ["and", ","] "" cell)).toList)

/-- The lowercased header names of the `cols_no_names` filter
(lines 922-928). -/
def noNamesSet : List String := ["reference", "author", "reference-(5)", "author/reference"]

/-- The literal header names of the `col_no_generic` filter
(lines 932-950). -/
def genericCols : List String :=
  ["Venue", "Month", "Year", "No.", "[HTML]D0CECE\nYear", "Title", "URL",
    "[HTML]BBDAFFYear", "Link", "Version", "Organiser", "Citations", "Pub.",
    "Title of Survey Article", "License", "Publication"]

/-- The per-column removal checks of the column loop (lines 899-976),
in source order; the result is the list of `remove_cols` appends this
column contributes.  `old` is `table["table_json"]["old_citation_column"]`
(appended verbatim by `cols_no_old_citation_col`; a null there never
matches a real column name).  When an aspect-based flag is enabled the
column's aspect type is computed first; on an empty column this raises
(IndexError), modeled as `error`.  The `col.lower in {...}` operand of
`col_no_generic` compares a bound method against strings and is
identically false. -/
def colEmits (filters : List String) (old : Option String) (col : String)
    (vs : List String) (aspect : Option String) : List (Option String) :=
  (if colRule1 vs then [some col] else []) ++
  (if digitsEndMatch col then [some col] else []) ++
  (if filters.contains "cols_no_formula" &&
      (vs ++ [col]).any (fun c => strHas c "\x7b\x7bformula:") then [some col] else []) ++
  (if filters.contains "cols_no_formula_colname" &&
      strHas col "\x7b\x7bformula:" then [some col] else []) ++
  (if filters.contains "cols_no_names" && noNamesSet.contains (strLower col) then
    [some col] else []) ++
  (if filters.contains "col_no_generic" && (genericCols.contains col || false) then
    [some col] else []) ++
  (if filters.contains "cols_no_old_citation_col" then [old] else []) ++
  (if filters.contains "cols_no_float" &&
      (vs ++ [col]).any (fun c => floatReSearch c.toList) then [some col] else []) ++
  (if filters.contains "cols_no_figure" &&
      (vs ++ [col]).any (fun c => strHas c "\x7b\x7bfigure") then [some col] else []) ++
  (if filters.contains "cols_no_numeric" && (aspect == some "num") then [some col] else []) ++
  (if filters.contains "cols_no_ent_or_gen" &&
      (aspect == some "gen" || aspect == some "ent") then [some col] else [])

/-- The checks wrapped with the aspect computation: an aspect-based
flag forces `get_aspect_type` on the column first, raising on an empty
column; otherwise no aspect is computed and the aspect rules cannot
fire. -/
def colChecks (filters : List String) (old : Option String) (col : String)
    (vs : List String) : Except Unit (List (Option String)) :=
  if filters.contains "cols_no_ent_or_gen" || filters.contains "cols_no_numeric" then
    match Summarize.get_aspect_type vs with
    | none => .error ()
    | some a => .ok (colEmits filters old col vs (some a))
  else .ok (colEmits filters old col vs none)

/-- The whole column loop: `remove_cols` accumulated over the columns
in dict order. -/
def colLoop (filters : List String) (old : Option String) :
    List (String × List String) → Except Unit (List (Option String))
  | [] => .ok []
  | p :: rest =>
    match colChecks filters old p.1 p.2 with
    | .error e => .error e
    | .ok here =>
      match colLoop filters old rest with
      | .error e => .error e
      | .ok more => .ok (here ++ more)

/-- State of the row-removal loop (lines 866-885): the removed `row`
values, the set of removed bib hashes, and the rebuilt (renumbered)
bib map. -/
structure RowLoopSt where
  removeRows : List Nat
  removeHashes : List String
  newMap : List BibRow
  deriving Repr, DecidableEq

/-- Python `set.add`. -/
def setInsert (s : List String) (h : String) : List String :=
  if s.contains h then s else h :: s

/-- The three per-row removal conditions, in source order.  With
`rows_no_missing_titles` (resp. `abstracts`) enabled, a row lacking the
`title` (resp. `abstract`) key raises an uncaught KeyError. -/
def rowRemoveCheck (fT fA fF : Bool) (validIds : List Int) (r : BibRow) :
    Except Unit Bool :=
  match (if fT then r.title else some (some "")) with
  | none => .error ()
  | some tv =>
    match (if fA then r.abstract else some (some "")) with
    | none => .error ()
    | some av =>
      .ok ((fT && tv.isNone) || (fA && av.isNone) ||
        (fF && !validIds.contains r.corpusId))

/-- The row-removal loop: removed rows record their `row` value and bib
hash; kept rows are appended with `row` renumbered to the current
length of the rebuilt map. -/
def rowLoop (fT fA fF : Bool) (validIds : List Int) :
    List BibRow → RowLoopSt → Except Unit RowLoopSt
  | [], st => .ok st
  | r :: rs, st =>
    match rowRemoveCheck fT fA fF validIds r with
    | .error e => .error e
    | .ok true =>
      rowLoop fT fA fF validIds rs
        ⟨st.removeRows ++ [r.row], setInsert st.removeHashes r.bibHashOrArxivId, st.newMap⟩
    | .ok false =>
      rowLoop fT fA fF validIds rs
        ⟨st.removeRows, st.removeHashes, st.newMap ++ [{ r with row := st.newMap.length }]⟩

/-- `[val for row_i, val in enumerate(vals) if row_i not in remove_rows]`. -/
def exciseRows (removeRows : List Nat) (vs : List String) : List String :=
  (vs.enum.filter (fun p => !removeRows.contains p.1)).map Prod.snd

/-- The `new_table_dict` rebuild (lines 979-984): drop a column that is
in `remove_cols` unless it is named `References`; excise the removed
row positions from every kept column. -/
def rebuildDict (removeCols : List (Option String)) (removeRows : List Nat)
    (d : List (String × List String)) : List (String × List String) :=
  (d.filter (fun p => !removeCols.contains (some p.1) || p.1 == "References")).map
    (fun p => (p.1, exciseRows removeRows p.2))

/-- `re.sub(r"{{cite:.{7}}}", "[cite]", s)`: mask every citation marker
whose seven key characters are newline-free. -/
def citeMaskAux : Nat → List Char → List Char
  | 0, s => s
  | _ + 1, [] => []
  | fuel + 1, c :: rest =>
    match c :: rest with
    | '{' :: '{' :: 'c' :: 'i' :: 't' :: 'e' :: ':' ::
        a :: b :: c2 :: d :: e :: f :: g :: '}' :: '}' :: tail =>
      if a != '\n' && b != '\n' && c2 != '\n' && d != '\n' && e != '\n' &&
          f != '\n' && g != '\n' then
        "[cite]".toList ++ citeMaskAux fuel tail
      else c :: citeMaskAux fuel rest
    | _ => c :: citeMaskAux fuel rest

/-- The marker-masking substitution on strings. -/
def citeMask (s : String) : String := ⟨citeMaskAux s.toList.length s.toList⟩

/-- The `no_dup` signature of a rebuilt dict (lines 992-999): columns
other than `References`, tab-joined, markers masked, newline-joined. -/
def noDupStr (d : List (String × List String)) : String :=
  nlJoin ((d.filter (fun p => p.1 != "References")).map
    (fun p => citeMask (tabJoin p.1 p.2)))

/-- The minimum surviving column count (line 987): 2 when an
aspect-based column filter is enabled, else 3. -/
def hqMinCols (filters : List String) : Nat :=
  if filters.contains "cols_no_ent_or_gen" || filters.contains "cols_no_numeric" then 2 else 3

/-- The tail of the per-table pipeline after the column loop: rebuild
the dict, apply the minimum-columns check, then the `no_dup`
deduplication against `seen`; a survivor carries the rebuilt dict and
renumbered bib map. -/
def finishTable (filters : List String) (seen : List String) (t : HQTable)
    (st : RowLoopSt) (removeCols : List (Option String)) :
    Except Unit (Option (HQTable × List String)) :=
  if (rebuildDict removeCols st.removeRows t.tableDict).length < hqMinCols filters then
    .ok none
  else if filters.contains "no_dup" then
    if seen.contains (noDupStr (rebuildDict removeCols st.removeRows t.tableDict)) then
      .ok none
    else
      .ok (some ({ t with tableDict := rebuildDict removeCols st.removeRows t.tableDict, rowBibMap := st.newMap },
        noDupStr (rebuildDict removeCols st.removeRows t.tableDict) :: seen))
  else
    .ok (some ({ t with tableDict := rebuildDict removeCols st.removeRows t.tableDict, rowBibMap := st.newMap }, seen))

/-- Pipeline stage after the row loop (lines 888-898 onward): the two
table-size drops, then the column loop and the tail. -/
def ptSizeChecks (filters : List String) (seen : List String) (t : HQTable)
    (refVals : List String) (st : RowLoopSt) : Except Unit (Option (HQTable × List String)) :=
  if filters.contains "more_than_two_rows" &&
      decide ((refVals.length : Int) - st.removeRows.length < 2) then
    .ok none
  else if filters.contains "more_than_two_uniq_rows" &&
      decide ((refVals.dedup.length : Int) - st.removeHashes.length < 2) then
    .ok none
  else match colLoop filters t.oldCitationColumn t.tableDict with
  | .error e => .error e
  | .ok removeCols => finishTable filters seen t st removeCols

/-- Pipeline stage after the References lookup (lines 850-885): the
all-dash drop, the missing-title/abstract drops (the title check's
KeyError is caught and also drops), and the row-removal loop. -/
def ptRowStage (filters : List String) (validCorpusIds : List Int) (seen : List String)
    (t : HQTable) (refVals : List String) : Except Unit (Option (HQTable × List String)) :=
  if refVals.all (fun cell => pyStrip cell == "-") then .ok none
  else if filters.contains "no_missing_titles" &&
      t.rowBibMap.any (fun r => r.title == none || r.title == some none) then
    .ok none
  else match (if filters.contains "no_missing_abstracts" then
      (if t.rowBibMap.any (fun r => r.abstract == none) then none
        else some (t.rowBibMap.any (fun r => r.abstract == some none)))
    else some false) with
  | none => .error ()
  | some dropAbs =>
    if dropAbs then .ok none
    else match rowLoop (filters.contains "rows_no_missing_titles")
        (filters.contains "rows_no_missing_abstracts")
        (filters.contains "rows_no_missing_full_texts") validCorpusIds
        t.rowBibMap ⟨[], [], []⟩ with
    | .error e => .error e
    | .ok st => ptSizeChecks filters seen t refVals st

/-- Pipeline stage after the caption check (lines 831-852): the
in-text-ref check (missing key raises), the `no_cite` drops, the
merged-headers drop, and the References lookup (missing key raises). -/
def ptChecksStage (filters : List String) (validCorpusIds : List Int) (seen : List String)
    (t : HQTable) : Except Unit (Option (HQTable × List String)) :=
  match (if filters.contains "has_in_text_ref" then t.inTextRef.map (fun b => !b)
      else some false) with
  | none => .error ()
  | some dropRef =>
    if dropRef then .ok none
    else if filters.contains "no_no_cite" && strHas (tableStrOf t.tableDict) "no_cite" then
      .ok none
    else if filters.contains "max_one_no_cite" &&
        decide (1 < countOcc "no_cite".toList (tableStrOf t.tableDict).toList) then
      .ok none
    else if filters.contains "no_merged_headers" &&
        t.tableDict.any (fun p => strHas p.1 "-") then
      .ok none
    else match (t.tableDict.find? (fun p => p.1 == "References")).map Prod.snd with
    | none => .error ()
    | some refVals => ptRowStage filters validCorpusIds seen t refVals

/-- One iteration of the pipeline's table loop (lines 814-1008).
`ok none` = the table is dropped (`continue`); `ok (some (t, seen))` =
the table survives, with the updated `seen_table_strs`; `error` = an
uncaught exception.  The caption test parses as
`(has_caption in filters and caption == "NO_CAPTION") or not caption.strip()`,
and reading a missing `caption` key raises on either path. -/
def processTable (filters : List String) (validCorpusIds : List Int)
    (seen : List String) (t : HQTable) : Except Unit (Option (HQTable × List String)) :=
  if filters.contains "no_formula" && strHas (tableStrOf t.tableDict) "\x7b\x7bformula:" then
    .ok none
  else match t.caption with
  | none => .error ()
  | some cap =>
    if (filters.contains "has_caption" && cap == "NO_CAPTION") || pyStrip cap == "" then
      .ok none
    else ptChecksStage filters validCorpusIds seen t

/-- `get_high_quality_tables`: the table loop threading the
`seen_table_strs` set; `validCorpusIds` stands for the corpus ids read
from the three `full_texts_corpus_ids.jsonl` files (environment
input, only consulted under `rows_no_missing_full_texts`). -/
def getHighQualityTables (filters : List String) (validCorpusIds : List Int) :
    List String → List HQTable → Except Unit (List HQTable)
  | _, [] => .ok []
  | seen, t :: ts =>
    match processTable filters validCorpusIds seen t with
    | .error e => .error e
    | .ok none => getHighQualityTables filters validCorpusIds seen ts
    | .ok (some (t2, seen2)) =>
      match getHighQualityTables filters validCorpusIds seen2 ts with
      | .error e => .error e
      | .ok rest => .ok (t2 :: rest)

/-- Membership in a conditional singleton. -/
lemma mem_if_single {α : Type} (p : Prop) [Decidable p] (x y : α) :
    (x ∈ if p then [y] else []) ↔ p ∧ x = y := by
  split <;> simp_all

/-- The removal conditions a column `(c, vs)` can contribute for an
element `x` of `remove_cols`, written against the source's rules: the
two unconditional rules and the flag-gated ones. -/
def colRemovedSpec (filters : List String) (old : Option String) (c : String)
    (vs : List String) (x : Option String) : Prop :=
  (x = some c ∧ (colRule1 vs = true ∨ digitsEndMatch c = true ∨
    (filters.contains "cols_no_formula" &&
      (vs ++ [c]).any (fun s => strHas s "\x7b\x7bformula:")) = true ∨
    (filters.contains "cols_no_formula_colname" && strHas c "\x7b\x7bformula:") = true ∨
    (filters.contains "cols_no_names" && noNamesSet.contains (strLower c)) = true ∨
    (filters.contains "col_no_generic" && (genericCols.contains c || false)) = true ∨
    (filters.contains "cols_no_float" &&
      (vs ++ [c]).any (fun s => floatReSearch s.toList)) = true ∨
    (filters.contains "cols_no_figure" &&
      (vs ++ [c]).any (fun s => strHas s "\x7b\x7bfigure")) = true ∨
    (filters.contains "cols_no_numeric" &&
      (Summarize.get_aspect_type vs == some "num")) = true ∨
    (filters.contains "cols_no_ent_or_gen" &&
      (Summarize.get_aspect_type vs == some "gen" ||
        Summarize.get_aspect_type vs == some "ent")) = true)) ∨
  (filters.contains "cols_no_old_citation_col" = true ∧ x = old)

/-- Membership in a column's emitted removals, with the aspect left
abstract. -/
lemma colEmits_mem (filters : List String) (old : Option String) (c : String)
    (vs : List String) (aspect : Option String) (x : Option String) :
    x ∈ colEmits filters old c vs aspect ↔
      (x = some c ∧ (colRule1 vs = true ∨ digitsEndMatch c = true ∨
        (filters.contains "cols_no_formula" &&
          (vs ++ [c]).any (fun s => strHas s "\x7b\x7bformula:")) = true ∨
        (filters.contains "cols_no_formula_colname" && strHas c "\x7b\x7bformula:") = true ∨
        (filters.contains "cols_no_names" && noNamesSet.contains (strLower c)) = true ∨
        (filters.contains "col_no_generic" && (genericCols.contains c || false)) = true ∨
        (filters.contains "cols_no_float" &&
          (vs ++ [c]).any (fun s => floatReSearch s.toList)) = true ∨
        (filters.contains "cols_no_figure" &&
          (vs ++ [c]).any (fun s => strHas s "\x7b\x7bfigure")) = true ∨
        (filters.contains "cols_no_numeric" && (aspect == some "num")) = true ∨
        (filters.contains "cols_no_ent_or_gen" &&
          (aspect == some "gen" || aspect == some "ent")) = true)) ∨
      (filters.contains "cols_no_old_citation_col" = true ∧ x = old) := by
  simp only [colEmits, List.mem_append, mem_if_single]
  tauto

/-- Membership characterization of one column's checks. -/
lemma colChecks_mem (filters : List String) (old : Option String) (c : String)
    (vs : List String) (here : List (Option String))
    (h : colChecks filters old c vs = .ok here) (x : Option String) :
    x ∈ here ↔ colRemovedSpec filters old c vs x := by
  unfold colChecks at h
  by_cases hf : (filters.contains "cols_no_ent_or_gen" ||
      filters.contains "cols_no_numeric") = true
  · rw [if_pos hf] at h
    cases hg : Summarize.get_aspect_type vs with
    | none => rw [hg] at h; cases h
    | some a =>
      rw [hg] at h
      injection h with h
      subst h
      rw [colEmits_mem, colRemovedSpec, hg]
  · rw [if_neg hf] at h
    injection h with h
    subst h
    have h9 : filters.contains "cols_no_numeric" = false := by
      cases h9 : filters.contains "cols_no_numeric" <;> simp_all
    have h10 : filters.contains "cols_no_ent_or_gen" = false := by
      cases h10 : filters.contains "cols_no_ent_or_gen" <;> simp_all
    rw [colEmits_mem, colRemovedSpec, h9, h10]
    simp only [Bool.false_and]

/-- Membership characterization of the whole column loop. -/
lemma colLoop_mem (filters : List String) (old : Option String) :
    ∀ (d : List (String × List String)) (rc : List (Option String)),
      colLoop filters old d = .ok rc →
      ∀ x, (x ∈ rc ↔ ∃ p, p ∈ d ∧ colRemovedSpec filters old p.1 p.2 x) := by
  intro d
  induction d with
  | nil =>
    intro rc h x
    injection h with h
    subst h
    simp
  | cons p rest ih =>
    intro rc h x
    unfold colLoop at h
    cases hc : colChecks filters old p.1 p.2 with
    | error e => rw [hc] at h; cases h
    | ok here =>
      rw [hc] at h
      cases hr : colLoop filters old rest with
      | error e => rw [hr] at h; cases h
      | ok more =>
        rw [hr] at h
        injection h with h
        subst h
        simp only [List.mem_append, colChecks_mem filters old p.1 p.2 here hc x,
          ih more hr x]
        constructor
        · rintro (h1 | ⟨q, hq, h2⟩)
          · exact ⟨p, List.mem_cons_self p rest, h1⟩
          · exact ⟨q, List.mem_cons_of_mem p hq, h2⟩
        · rintro ⟨q, hq, h2⟩
          rcases List.mem_cons.mp hq with rfl | hq2
          · exact Or.inl h2
          · exact Or.inr ⟨q, hq2, h2⟩

/-- The rebuilt bib map of a successful row loop is a kept subsequence
of the input rows, renumbered contiguously from the accumulator's
length. -/
lemma rowLoop_newMap (fT fA fF : Bool) (ids : List Int) :
    ∀ (rs : List BibRow) (st st2 : RowLoopSt),
      rowLoop fT fA fF ids rs st = .ok st2 →
      ∃ keep : List BibRow, keep.Sublist rs ∧
        st2.newMap = st.newMap ++
          (keep.enumFrom st.newMap.length).map (fun p => { p.2 with row := p.1 }) := by
  intro rs
  induction rs with
  | nil =>
    intro st st2 h
    injection h with h
    subst h
    exact ⟨[], List.nil_sublist _, by simp⟩
  | cons r rs ih =>
    intro st st2 h
    unfold rowLoop at h
    cases hc : rowRemoveCheck fT fA fF ids r with
    | error e => rw [hc] at h; cases h
    | ok b =>
      rw [hc] at h
      cases b with
      | true =>
        obtain ⟨keep, hsub, heq⟩ := ih _ _ h
        exact ⟨keep, hsub.cons r, heq⟩
      | false =>
        obtain ⟨keep, hsub, heq⟩ := ih _ _ h
        refine ⟨r :: keep, hsub.cons₂ r, ?_⟩
        rw [heq]
        simp [List.enumFrom, List.length_append, List.append_assoc]

/-- Column names of a rebuilt dict come from the input dict. -/
lemma rebuildDict_names_subset (removeCols : List (Option String)) (removeRows : List Nat)
    (d : List (String × List String)) :
    (rebuildDict removeCols removeRows d).map Prod.fst ⊆ d.map Prod.fst := by
  intro x hx
  simp only [rebuildDict, List.map_map, List.mem_map, Function.comp] at hx
  obtain ⟨p, hp, hx⟩ := hx
  exact List.mem_map.mpr ⟨p, (List.mem_filter.mp hp).1, hx⟩

/-- When the References lookup succeeded, the rebuilt dict still has a
References column. -/
lemma rebuildDict_refs_mem (removeCols : List (Option String)) (removeRows : List Nat)
    (d : List (String × List String)) (refVals : List String)
    (h : (d.find? (fun p => p.1 == "References")).map Prod.snd = some refVals) :
    "References" ∈ (rebuildDict removeCols removeRows d).map Prod.fst := by
  obtain ⟨p, hp⟩ : ∃ p, d.find? (fun p => p.1 == "References") = some p := by
    cases hf : d.find? (fun p => p.1 == "References") with
    | none => rw [hf] at h; cases h
    | some p => exact ⟨p, rfl⟩
  have hpm : p ∈ d := List.mem_of_find?_eq_some hp
  have hpe : p.1 = "References" := by
    have h2 := List.find?_some hp
    simpa using h2
  have hfilt : p ∈ d.filter
      (fun q => !removeCols.contains (some q.1) || q.1 == "References") := by
    refine List.mem_filter.mpr ⟨hpm, ?_⟩
    simp [hpe]
  simp only [rebuildDict, List.mem_map]
  exact ⟨(p.1, exciseRows removeRows p.2), ⟨p, hfilt, rfl⟩, hpe⟩

/-- Every column of the rebuilt dict is an input column with the
removed row positions excised. -/
lemma rebuildDict_col_excised (removeCols : List (Option String)) (removeRows : List Nat)
    (d : List (String × List String)) (c : String) (vs2 : List String)
    (h : (c, vs2) ∈ rebuildDict removeCols removeRows d) :
    ∃ vs, (c, vs) ∈ d ∧ vs2 = exciseRows removeRows vs := by
  simp only [rebuildDict, List.mem_map] at h
  obtain ⟨⟨a, b⟩, hp, heq⟩ := h
  injection heq with h1 h2
  subst h1
  subst h2
  exact ⟨b, (List.mem_filter.mp hp).1, rfl⟩

/-- A surviving result of the pipeline tail carries exactly the
rebuilt dict and the renumbered bib map, and passed the
minimum-columns check. -/
lemma finishTable_some_elim (filters : List String) (seen : List String) (t : HQTable)
    (st : RowLoopSt) (removeCols : List (Option String)) (r : HQTable × List String)
    (h : finishTable filters seen t st removeCols = .ok (some r)) :
    r.1 = { t with tableDict := rebuildDict removeCols st.removeRows t.tableDict, rowBibMap := st.newMap } ∧
      hqMinCols filters ≤ (rebuildDict removeCols st.removeRows t.tableDict).length := by
  unfold finishTable at h
  split at h
  · simp at h
  next hlen =>
    split at h
    · split at h
      · simp at h
      · simp only [Except.ok.injEq, Option.some.injEq] at h
        subst h
        exact ⟨rfl, Nat.not_lt.mp hlen⟩
    · simp only [Except.ok.injEq, Option.some.injEq] at h
      subst h
      exact ⟨rfl, Nat.not_lt.mp hlen⟩

/-- Eliminating a survivor through the size-check stage. -/
lemma ptSizeChecks_some_elim (filters : List String) (seen : List String) (t : HQTable)
    (refVals : List String) (st : RowLoopSt) (r : HQTable × List String)
    (h : ptSizeChecks filters seen t refVals st = .ok (some r)) :
    ∃ removeCols, colLoop filters t.oldCitationColumn t.tableDict = .ok removeCols ∧
      finishTable filters seen t st removeCols = .ok (some r) := by
  unfold ptSizeChecks at h
  split at h
  · simp at h
  · split at h
    · simp at h
    · split at h
      · cases h
      next removeCols hrc => exact ⟨removeCols, hrc, h⟩

/-- Eliminating a survivor through the row stage. -/
lemma ptRowStage_some_elim (filters : List String) (validCorpusIds : List Int)
    (seen : List String) (t : HQTable) (refVals : List String) (r : HQTable × List String)
    (h : ptRowStage filters validCorpusIds seen t refVals = .ok (some r)) :
    ∃ st, rowLoop (filters.contains "rows_no_missing_titles")
        (filters.contains "rows_no_missing_abstracts")
        (filters.contains "rows_no_missing_full_texts") validCorpusIds
        t.rowBibMap ⟨[], [], []⟩ = .ok st ∧
      ptSizeChecks filters seen t refVals st = .ok (some r) := by
  unfold ptRowStage at h
  split at h
  · simp at h
  · split at h
    · simp at h
    · split at h
      · cases h
      · split at h
        · simp at h
        · split at h
          · cases h
          next st hst => exact ⟨st, hst, h⟩

/-- Eliminating a survivor through the reference checks: the
References lookup must have succeeded. -/
lemma ptChecksStage_some_elim (filters : List String) (validCorpusIds : List Int)
    (seen : List String) (t : HQTable) (r : HQTable × List String)
    (h : ptChecksStage filters validCorpusIds seen t = .ok (some r)) :
    ∃ refVals, (t.tableDict.find? (fun p => p.1 == "References")).map Prod.snd = some refVals ∧
      ptRowStage filters validCorpusIds seen t refVals = .ok (some r) := by
  unfold ptChecksStage at h
  split at h
  · cases h
  · split at h
    · simp at h
    · split at h
      · simp at h
      · split at h
        · simp at h
        · split at h
          · simp at h
          · split at h
            · cases h
            next refVals hrefs => exact ⟨refVals, hrefs, h⟩

/-- Eliminating a survivor through the top of the table loop: it has a
caption and the caption is not pure whitespace. -/
lemma processTable_some_elim (filters : List String) (validCorpusIds : List Int)
    (seen : List String) (t : HQTable) (r : HQTable × List String)
    (h : processTable filters validCorpusIds seen t = .ok (some r)) :
    ∃ cap, t.caption = some cap ∧ pyStrip cap ≠ "" ∧
      ptChecksStage filters validCorpusIds seen t = .ok (some r) := by
  unfold processTable at h
  split at h
  · simp at h
  · split at h
    · cases h
    next cap hcap =>
      split at h
      · simp at h
      next hkeep =>
        refine ⟨cap, hcap, ?_, h⟩
        intro hblank
        exact hkeep (by simp [hblank])

/-- Every output record of the pipeline comes from an input record
that survived `processTable` under some `seen` state. -/
lemma getHQ_mem (filters : List String) (validCorpusIds : List Int) :
    ∀ (seen : List String) (ts out : List HQTable),
      getHighQualityTables filters validCorpusIds seen ts = .ok out →
      ∀ t2, t2 ∈ out → ∃ t, t ∈ ts ∧ ∃ s1 s2,
        processTable filters validCorpusIds s1 t = .ok (some (t2, s2)) := by
  intro seen ts
  induction ts generalizing seen with
  | nil =>
    intro out h t2 ht2
    injection h with h
    subst h
    cases ht2
  | cons t ts ih =>
    intro out h t2 ht2
    unfold getHighQualityTables at h
    cases hp : processTable filters validCorpusIds seen t with
    | error e => rw [hp] at h; cases h
    | ok o =>
      rw [hp] at h
      cases o with
      | none =>
        obtain ⟨t3, hm, hrest⟩ := ih seen out h t2 ht2
        exact ⟨t3, List.mem_cons_of_mem t hm, hrest⟩
      | some pair =>
        obtain ⟨tk, seen2⟩ := pair
        dsimp only at h
        cases hr : getHighQualityTables filters validCorpusIds seen2 ts with
        | error e => rw [hr] at h; simp at h
        | ok rest =>
          rw [hr] at h
          injection h with h
          subst h
          rcases List.mem_cons.mp ht2 with rfl | htail
          · exact ⟨t, List.mem_cons_self t ts, seen, seen2, hp⟩
          · obtain ⟨t3, hm, hrest⟩ := ih seen2 rest hr t2 htail
            exact ⟨t3, List.mem_cons_of_mem t hm, hrest⟩

/- ---------------------------------------------------------------- -/
/- C5                                                               -/
/- ---------------------------------------------------------------- -/

/-- C5 as claimed: a non-References column is removed only by an
ENABLED rule, so running the pipeline with an empty filter list keeps
every column of a surviving table. -/
def claimC5 : Prop :=
  ∀ (validCorpusIds : List Int) (seen seen2 : List String) (t t2 : HQTable),
    processTable [] validCorpusIds seen t = .ok (some (t2, seen2)) →
    t2.tableDict.map Prod.fst = t.tableDict.map Prod.fst

/-- A table with a numeric-headed column "7"; no filters are enabled. -/
def c5Table : HQTable :=
  { tableHash := "h5", caption := some "cap",
    tableDict := [("References", ["{{cite:abcdefa}}", "{{cite:abcdefb}}"]),
      ("A", ["x", "y"]), ("B", ["u", "v"]), ("7", ["1", "2"])],
    rowBibMap := [] }

/-- What the pipeline keeps of `c5Table` under the empty filter list. -/
def c5Kept : HQTable :=
  { tableHash := "h5", caption := some "cap",
    tableDict := [("References", ["{{cite:abcdefa}}", "{{cite:abcdefb}}"]),
      ("A", ["x", "y"]), ("B", ["u", "v"])],
    rowBibMap := [] }

/-- C5 counterexample: two column-removal rules are unconditional —
with NO flags enabled, the column named "7" (a purely numeric header)
is still removed from a surviving table. -/
theorem c5_counterexample : ¬ claimC5 := by
  intro h
  have h2 := h [] [] [] c5Table c5Kept rfl
  exact absurd h2 (by decide)

/-- C5 (amended): for a surviving table, `remove_cols` contains
exactly the appends described by `colRemovedSpec` — the all-dash-or-
citation rule and the numeric-header rule fire UNCONDITIONALLY, the
other rules only when their flag is enabled (and
`cols_no_old_citation_col` contributes the recorded old citation
column) — the surviving dict is the rebuild from `remove_cols` with
some removed row set, and it kept at least 3 columns, or 2 when an
aspect-based column filter was enabled. -/
theorem c5_amended (filters : List String) (validCorpusIds : List Int)
    (seen seen2 : List String) (t t2 : HQTable)
    (h : processTable filters validCorpusIds seen t = .ok (some (t2, seen2))) :
    (∃ removeCols, colLoop filters t.oldCitationColumn t.tableDict = .ok removeCols ∧
      (∀ x, x ∈ removeCols ↔ ∃ p, p ∈ t.tableDict ∧
        colRemovedSpec filters t.oldCitationColumn p.1 p.2 x) ∧
      ∃ rr, t2.tableDict = rebuildDict removeCols rr t.tableDict) ∧
    hqMinCols filters ≤ t2.tableDict.length := by
  obtain ⟨cap, hcap, hblank, hcs⟩ := processTable_some_elim _ _ _ _ _ h
  obtain ⟨refVals, hrefs, hrow⟩ := ptChecksStage_some_elim _ _ _ _ _ hcs
  obtain ⟨st, hst, hsz⟩ := ptRowStage_some_elim _ _ _ _ _ _ hrow
  obtain ⟨removeCols, hrc, hfin⟩ := ptSizeChecks_some_elim _ _ _ _ _ _ hsz
  obtain ⟨hrec, hlen⟩ := finishTable_some_elim _ _ _ _ _ _ hfin
  have hrec2 : t2 = { t with tableDict := rebuildDict removeCols st.removeRows t.tableDict, rowBibMap := st.newMap } := hrec
  have hdict : t2.tableDict = rebuildDict removeCols st.removeRows t.tableDict := by
    rw [hrec2]
  refine ⟨⟨removeCols, hrc, colLoop_mem filters t.oldCitationColumn t.tableDict removeCols hrc,
    st.removeRows, hdict⟩, ?_⟩
  rw [hdict]
  exact hlen

/-- Witness for C5 (amended) at `c5Table` with no filters: the
characterization and the 3-column minimum hold for the concrete
survivor. -/
theorem c5_amended_witness :
    (∃ removeCols, colLoop [] c5Table.oldCitationColumn c5Table.tableDict = .ok removeCols ∧
      (∀ x, x ∈ removeCols ↔ ∃ p, p ∈ c5Table.tableDict ∧
        colRemovedSpec [] c5Table.oldCitationColumn p.1 p.2 x) ∧
      ∃ rr, c5Kept.tableDict = rebuildDict removeCols rr c5Table.tableDict) ∧
    hqMinCols [] ≤ c5Kept.tableDict.length :=
  c5_amended [] [] [] [] c5Table c5Kept rfl

/- ---------------------------------------------------------------- -/
/- C7                                                               -/
/- ---------------------------------------------------------------- -/

/-- C7: every record surviving the pipeline comes from an input record
of which it differs only in `tableDict` and `rowBibMap`; its column
names are a subset of the input's and still include `References`;
every surviving column is the input column with one fixed set of row
positions excised; and its bib map is a subsequence of the input rows
renumbered contiguously from 0 in order — rows and columns are only
removed, never added. -/
theorem c7_theorem (filters : List String) (validCorpusIds : List Int)
    (seen : List String) (ts out : List HQTable)
    (h : getHighQualityTables filters validCorpusIds seen ts = .ok out) :
    ∀ t2, t2 ∈ out → ∃ t, t ∈ ts ∧
      t2 = { t with tableDict := t2.tableDict, rowBibMap := t2.rowBibMap } ∧
      t2.tableDict.map Prod.fst ⊆ t.tableDict.map Prod.fst ∧
      "References" ∈ t2.tableDict.map Prod.fst ∧
      (∃ rr : List Nat, ∀ c vs2, (c, vs2) ∈ t2.tableDict →
        ∃ vs, (c, vs) ∈ t.tableDict ∧ vs2 = exciseRows rr vs) ∧
      (∃ keep : List BibRow, keep.Sublist t.rowBibMap ∧
        t2.rowBibMap = keep.enum.map (fun p => { p.2 with row := p.1 })) := by
  intro t2 ht2
  obtain ⟨t, hmem, s1, s2, hp⟩ := getHQ_mem filters validCorpusIds seen ts out h t2 ht2
  obtain ⟨cap, hcap, hblank, hcs⟩ := processTable_some_elim _ _ _ _ _ hp
  obtain ⟨refVals, hrefs, hrow⟩ := ptChecksStage_some_elim _ _ _ _ _ hcs
  obtain ⟨st, hst, hsz⟩ := ptRowStage_some_elim _ _ _ _ _ _ hrow
  obtain ⟨removeCols, hrc, hfin⟩ := ptSizeChecks_some_elim _ _ _ _ _ _ hsz
  obtain ⟨hrec, hlen⟩ := finishTable_some_elim _ _ _ _ _ _ hfin
  have hrec2 : t2 = { t with tableDict := rebuildDict removeCols st.removeRows t.tableDict, rowBibMap := st.newMap } := hrec
  have hdict : t2.tableDict = rebuildDict removeCols st.removeRows t.tableDict := by
    rw [hrec2]
  have hbm : t2.rowBibMap = st.newMap := by rw [hrec2]
  obtain ⟨keep, hsub, hnm⟩ := rowLoop_newMap _ _ _ _ _ _ _ hst
  refine ⟨t, hmem, ?_, ?_, ?_, ⟨st.removeRows, ?_⟩, ⟨keep, hsub, ?_⟩⟩
  · rw [hrec2]
  · rw [hdict]
    exact rebuildDict_names_subset removeCols st.removeRows t.tableDict
  · rw [hdict]
    exact rebuildDict_refs_mem removeCols st.removeRows t.tableDict refVals hrefs
  · intro c vs2 hcv
    rw [hdict] at hcv
    exact rebuildDict_col_excised removeCols st.removeRows t.tableDict c vs2 hcv
  · rw [hbm, hnm]
    simp [List.enum]

/-- A three-column, three-row table that survives the pipeline
untouched under the empty filter list. -/
def c7Table : HQTable :=
  { tableHash := "h7", caption := some "c",
    tableDict := [("References", ["{{cite:abcdefa}}", "{{cite:abcdefb}}", "{{cite:abcdefc}}"]),
      ("A", ["a1", "a2", "a3"]), ("B", ["b1", "b2", "b3"])],
    rowBibMap := [⟨"x1", 0, 1, "ref", none, none⟩, ⟨"x2", 1, 2, "ref", none, none⟩,
      ⟨"x3", 2, 3, "ref", none, none⟩] }

/-- Witness for C7 at a concrete surviving table. -/
theorem c7_witness :
    ∃ t, t ∈ [c7Table] ∧
      c7Table = { t with tableDict := c7Table.tableDict, rowBibMap := c7Table.rowBibMap } ∧
      c7Table.tableDict.map Prod.fst ⊆ t.tableDict.map Prod.fst ∧
      "References" ∈ c7Table.tableDict.map Prod.fst ∧
      (∃ rr : List Nat, ∀ c vs2, (c, vs2) ∈ c7Table.tableDict →
        ∃ vs, (c, vs) ∈ t.tableDict ∧ vs2 = exciseRows rr vs) ∧
      (∃ keep : List BibRow, keep.Sublist t.rowBibMap ∧
        c7Table.rowBibMap = keep.enum.map (fun p => { p.2 with row := p.1 })) :=
  c7_theorem [] [] [] [c7Table] [c7Table] rfl c7Table (List.mem_singleton.mpr rfl)

/- ---------------------------------------------------------------- -/
/- C10                                                              -/
/- ---------------------------------------------------------------- -/

/-- C10 as claimed: (1) a surviving table always has a non-whitespace
caption, whatever the filters; and (2) the pipeline can only run to
completion when every input record carries a caption field. -/
def claimC10 : Prop :=
  (∀ (filters : List String) (validCorpusIds : List Int) (seen : List String)
      (t : HQTable) (r : HQTable × List String),
    processTable filters validCorpusIds seen t = .ok (some r) →
      ∃ cap, t.caption = some cap ∧ pyStrip cap ≠ "") ∧
  (∀ (filters : List String) (validCorpusIds : List Int) (seen : List String)
      (ts out : List HQTable),
    getHighQualityTables filters validCorpusIds seen ts = .ok out →
      ∀ t, t ∈ ts → t.caption ≠ none)

/-- A captionless record whose serialized table contains a formula
placeholder. -/
def c10Table : HQTable :=
  { tableHash := "h10", caption := none,
    tableDict := [("References", ["{{formula:x}}"])], rowBibMap := [] }

/-- C10 counterexample: the caption read happens AFTER the `no_formula`
drop, so a captionless record that the formula filter discards does not
abort the pipeline — the batch completes — refuting "every input record
must carry a caption field for the pipeline to proceed at all". -/
theorem c10_counterexample : ¬ claimC10 := by
  intro h
  exact (h.2 ["no_formula"] [] [] [c10Table] [] rfl c10Table
    (List.mem_singleton.mpr rfl)) rfl

/-- C10 (amended): the unconditional half of the caption check is
real — every survivor has a caption that is not pure whitespace, even
with `has_caption` absent from the filters — and a captionless record
raises (KeyError) exactly when it is not dropped by the earlier
`no_formula` check. -/
theorem c10_amended (filters : List String) (validCorpusIds : List Int)
    (seen : List String) (t : HQTable) :
    (∀ r, processTable filters validCorpusIds seen t = .ok (some r) →
      ∃ cap, t.caption = some cap ∧ pyStrip cap ≠ "") ∧
    (t.caption = none →
      (filters.contains "no_formula" &&
        strHas (tableStrOf t.tableDict) "\x7b\x7bformula:") = false →
      processTable filters validCorpusIds seen t = .error ()) := by
  constructor
  · intro r hr
    obtain ⟨cap, hcap, hne, _⟩ := processTable_some_elim _ _ _ _ _ hr
    exact ⟨cap, hcap, hne⟩
  · intro hcap hnf
    unfold processTable
    rw [hnf, hcap]
    simp

/-- Witness for C10 (amended): the surviving `c5Table` has the
non-blank caption "cap"; the captionless `c10Table` with no filters
reaches the caption read and errors. -/
theorem c10_amended_witness :
    (∃ cap, c5Table.caption = some cap ∧ pyStrip cap ≠ "") ∧
      processTable [] [] [] c10Table = .error () :=
  ⟨(c10_amended [] [] [] c5Table).1 (c5Kept, []) rfl,
    (c10_amended [] [] [] c10Table).2 rfl rfl⟩
